import Mathlib

/-!
Verification development for the Scat31 card-game engine.

The definitions below are a shallow embedding of the game core found in
`src/shared/src/game.ts` and of the CPU policy found in the room module of
`src/client/src/App.tsx`.  JavaScript arrays holding piles of cards are
modelled as `List` with the pile's top at the *end* of the list (`pop` is
`getLast?` plus `dropLast`, `push` is append), mirroring the source's comment
`top is last`.  Player/turn mutation is modelled by explicit state passing.
Card ids (strings generated uniquely in the source) are modelled as `Nat`.
JavaScript numbers holding scores are modelled as `ℚ` (the three-of-a-kind
rule value is 30.5); the 32-bit LCG state is modelled as `Nat` reduced
mod 2 ^ 32 exactly where the source applies `>>> 0`.
-/

namespace Scat31

inductive Suit
| S
| H
| D
| C
deriving DecidableEq, Repr

inductive Rank
| A
| K
| Q
| J
| R10
| R9
| R8
| R7
| R6
| R5
| R4
| R3
| R2
deriving DecidableEq, Repr

structure Card where
  suit : Suit
  rank : Rank
  id : Nat
deriving DecidableEq, Repr

inductive PlayerType
| HUMAN
| CPU
deriving DecidableEq, Repr

/-- Server-only per-turn stage attached to a player (`START | DREW`);
`none` models the field being unset/null. -/
inductive TurnStage
| START
| DREW
deriving DecidableEq, Repr

structure Player where
  id : Nat
  name : String
  type : PlayerType
  hand : List Card
  lives : Int
  eliminated : Bool
  turnStage : Option TurnStage := none
  drawnCardId : Option Nat := none
  tookDiscardId : Option Nat := none
deriving DecidableEq, Repr

inductive Phase
| PLAYING
| KNOCKED
| SHOWDOWN
| HAND_OVER
| GAME_OVER
deriving DecidableEq, Repr

structure Rules where
  startingLives : Int
  allowKnockAnyScore : Bool
  knockMinScore : Option ℚ
  threeOfKindValue : Option ℚ
deriving DecidableEq, Repr

structure GameState where
  roomId : String
  rules : Rules
  players : List Player
  dealerIndex : Nat
  turnIndex : Nat
  phase : Phase
  knockedBy : Option Nat
  finalTurnsLeft : Int
  stock : List Card
  discard : List Card
  lastActionLog : List String
  winnerId : Option Nat
  seed : Nat
deriving DecidableEq, Repr

inductive Action
| DRAW_STOCK
| DRAW_DISCARD
| DISCARD (cardId : Nat)
| KNOCK
deriving DecidableEq, Repr

/-- `rankValue`: A=11, K/Q/J=10, numeral ranks their face value. -/
def rankValue : Rank → Nat
| Rank.A => 11
| Rank.K => 10
| Rank.Q => 10
| Rank.J => 10
| Rank.R10 => 10
| Rank.R9 => 9
| Rank.R8 => 8
| Rank.R7 => 7
| Rank.R6 => 6
| Rank.R5 => 5
| Rank.R4 => 4
| Rank.R3 => 3
| Rank.R2 => 2

/-- The three-of-a-kind test `a.rank === b.rank && b.rank === c.rank`
performed by `handValue` after destructuring the 3-card hand. -/
def isThreeOfKind : List Card → Bool
| [a, b, c] => decide (a.rank = b.rank ∧ b.rank = c.rank)
| _ => false

/-- One cell of the source's `sumsBySuit` record: the sum of `rankValue`
over the cards of suit `su`, accumulated by the source's single pass. -/
def suitSum (hand : List Card) (su : Suit) : Nat :=
  hand.foldl (fun acc c => if c.suit = su then acc + rankValue c.rank else acc) 0

/-- `Math.max(...Object.values(sumsBySuit))` with key order S, H, D, C. -/
def bestSuitSum (hand : List Card) : Nat :=
  max (max (max (suitSum hand Suit.S) (suitSum hand Suit.H)) (suitSum hand Suit.D))
    (suitSum hand Suit.C)

/-- `Math.max(...hand.map(c => rankValue(c.rank)))`. -/
def bestSingle (hand : List Card) : Nat :=
  (hand.map (fun c => rankValue c.rank)).foldl max 0

/-- The natural (non three-of-a-kind) value:
`Math.max(bestSuitSum, bestSingle)`. -/
def naturalHandValue (hand : List Card) : ℚ :=
  ((max (bestSuitSum hand) (bestSingle hand) : Nat) : ℚ)

/-- `handValue(hand, rules)`: 0 unless exactly 3 cards; the configured
three-of-a-kind value when configured and all ranks agree; otherwise the
natural value. -/
def handValue (hand : List Card) (rules : Rules) : ℚ :=
  if hand.length ≠ 3 then 0
  else
    match rules.threeOfKindValue with
    | some v => if isThreeOfKind hand then v else naturalHandValue hand
    | none => naturalHandValue hand

/-- `hasExact31`: the hand value is exactly 31. -/
def hasExact31 (hand : List Card) (rules : Rules) : Bool :=
  decide (handValue hand rules = 31)

example :
    handValue
      [⟨Suit.S, Rank.A, 0⟩, ⟨Suit.S, Rank.K, 1⟩, ⟨Suit.S, Rank.Q, 2⟩]
      ⟨3, true, none, some (mkRat 61 2)⟩ = 31 := by decide

example :
    handValue
      [⟨Suit.S, Rank.Q, 0⟩, ⟨Suit.H, Rank.Q, 1⟩, ⟨Suit.D, Rank.Q, 2⟩]
      ⟨3, true, none, some (mkRat 61 2)⟩ = mkRat 61 2 := by decide

example :
    handValue
      [⟨Suit.S, Rank.Q, 0⟩, ⟨Suit.H, Rank.R9, 1⟩, ⟨Suit.D, Rank.R2, 2⟩]
      ⟨3, true, none, some (mkRat 61 2)⟩ = 10 := by decide

/-! ## Deck and deterministic RNG (`makeRng`, `shuffleInPlace`, `makeDeck`) -/

/-- One step of the LCG inside `makeRng`:
`s = (1664525 * s + 1013904223) >>> 0`. -/
def lcgNext (s : Nat) : Nat :=
  (1664525 * s + 1013904223) % 4294967296

/-- Fisher–Yates loop of `shuffleInPlace`, indices descending from `i`.
Each iteration advances the LCG and swaps index `i` with
`j = Math.floor(rng() * (i + 1))`; since `rng()` returns `s / 2 ^ 32`
exactly, `j = s * (i + 1) / 2 ^ 32` in integer arithmetic. -/
def shuffleGo {α : Type} (arr : List α) (st : Nat) : Nat → List α
| 0 => arr
| Nat.succ i' =>
  let st2 := lcgNext st
  let j := st2 * (i' + 2) / 4294967296
  let arr2 :=
    match arr.get? (i' + 1), arr.get? j with
    | some a, some b => (arr.set (i' + 1) b).set j a
    | _, _ => arr
  shuffleGo arr2 st2 i'

/-- `shuffleInPlace(arr, seed)`: seeds the LCG with `seed >>> 0` and runs the
Fisher–Yates loop from the last index down to 1. -/
def shuffleInPlace {α : Type} (arr : List α) (seed : Nat) : List α :=
  match arr.length with
  | 0 => arr
  | Nat.succ n => shuffleGo arr (seed % 4294967296) n

/-- The 52 cards in construction order (suits S,H,D,C × ranks A..2), with
the source's unique running counter as the card id. -/
def freshDeck : List Card :=
  (([Suit.S, Suit.H, Suit.D, Suit.C].map
      (fun su =>
        [Rank.A, Rank.K, Rank.Q, Rank.J, Rank.R10, Rank.R9, Rank.R8, Rank.R7,
          Rank.R6, Rank.R5, Rank.R4, Rank.R3, Rank.R2].map
          (fun r => (su, r)))).flatten).enum.map
    (fun x => ⟨x.2.1, x.2.2, x.1⟩)

/-- `makeDeck(seed)`: build the 52-card set and shuffle it under `seed`. -/
def makeDeck (seed : Nat) : List Card :=
  shuffleInPlace freshDeck seed

/-! ## Turn order, lives, eliminations -/

/-- The scan in `nextActiveIndex`: try `(fromIndex + step) % n` for
`step = 1, ..., n`, returning the first non-eliminated seat;
`fuel` counts the remaining steps. -/
def nextActiveGo (ps : List Player) (fromIndex step : Nat) : Nat → Nat
| 0 => fromIndex
| Nat.succ fuel =>
  let idx := (fromIndex + step) % ps.length
  match ps.get? idx with
  | some p => if p.eliminated then nextActiveGo ps fromIndex (step + 1) fuel else idx
  | none => nextActiveGo ps fromIndex (step + 1) fuel

/-- `nextActiveIndex(state, fromIndex)`: the next non-eliminated seat after
`fromIndex` (wrapping); `fromIndex` itself when every probe fails. -/
def nextActiveIndex (s : GameState) (fromIndex : Nat) : Nat :=
  nextActiveGo s.players fromIndex 1 s.players.length

/-- `activePlayers(state)`: the non-eliminated players. -/
def activePlayers (s : GameState) : List Player :=
  s.players.filter (fun p => !p.eliminated)

/-- `loseLives(p, n)`: no-op on eliminated players; otherwise subtract and
clamp at 0, marking elimination when the result is ≤ 0. -/
def loseLives (p : Player) (n : Int) : Player :=
  if p.eliminated then p
  else
    let lives := p.lives - n
    if lives ≤ 0 then { p with lives := 0, eliminated := true }
    else { p with lives := lives }

/-- `finishElimsAndMaybeGameOver`: exactly one survivor sets `winnerId` and
phase `GAME_OVER`; otherwise clears `winnerId`. -/
def finishElimsAndMaybeGameOver (s : GameState) : GameState :=
  match s.players.filter (fun p => !p.eliminated) with
  | [w] => { s with winnerId := some w.id, phase := Phase.GAME_OVER }
  | _ => { s with winnerId := none }

/-! ## Dealing (`startHand`) -/

/-- The deal-order loop of `startHand`: starting at the dealer, repeatedly
step to `nextActiveIndex` and record the seat, once per player slot. -/
def buildOrderGo (s : GameState) (idx : Nat) : Nat → List Nat
| 0 => []
| Nat.succ n =>
  let j := nextActiveIndex s idx
  j :: buildOrderGo s j n

def buildOrder (s : GameState) : List Nat :=
  buildOrderGo s s.dealerIndex s.players.length

/-- Pop one card off the stock into seat `pi`'s hand
(`throw` on empty stock becomes `Except.error`). -/
def dealOne (s : GameState) (pi : Nat) : Except String GameState :=
  match s.stock.getLast? with
  | none => Except.error "Stock empty during deal"
  | some card =>
    match s.players.get? pi with
    | some p =>
      Except.ok
        { s with
          stock := s.stock.dropLast
          players := s.players.set pi { p with hand := p.hand ++ [card] } }
    | none => Except.ok { s with stock := s.stock.dropLast }

def dealList (s : GameState) : List Nat → Except String GameState
| [] => Except.ok s
| pi :: rest =>
  match dealOne s pi with
  | Except.error e => Except.error e
  | Except.ok s2 => dealList s2 rest

def dealRounds (s : GameState) (order : List Nat) : Nat → Except String GameState
| 0 => Except.ok s
| Nat.succ r =>
  match dealList s order with
  | Except.error e => Except.error e
  | Except.ok s2 => dealRounds s2 order r

/-- `startHand(state)`: reset hand state, build a fresh shuffled deck under
the incrementing seed, deal 3 rounds over the computed order, flip the
initial discard, set the first turn left of the dealer, and resolve any
dealt-31 auto-declaration. -/
def startHand (s : GameState) : Except String GameState :=
  let s0 : GameState :=
    { s with
      phase := Phase.PLAYING
      knockedBy := none
      finalTurnsLeft := 0
      stock := makeDeck s.seed
      seed := s.seed + 1
      discard := []
      lastActionLog := []
      players := s.players.map (fun p => { p with hand := [] }) }
  let order := buildOrder s0
  match dealRounds s0 order 3 with
  | Except.error e => Except.error e
  | Except.ok s1 =>
    match s1.stock.getLast? with
    | none => Except.error "Stock empty starting discard"
    | some up =>
      let s2 : GameState :=
        { s1 with stock := s1.stock.dropLast, discard := s1.discard ++ [up] }
      let s3 : GameState := { s2 with turnIndex := nextActiveIndex s2 s2.dealerIndex }
      let winners := s3.players.filter (fun p => !p.eliminated && hasExact31 p.hand s3.rules)
      if winners.isEmpty then Except.ok s3
      else
        let s4 : GameState :=
          { s3 with lastActionLog := s3.lastActionLog ++
            ["Dealt 31! " ++ String.intercalate ", " (winners.map Player.name)
              ++ " declare immediately."] }
        let s5 : GameState :=
          { s4 with players := s4.players.map (fun p =>
            if p.eliminated then p
            else if winners.any (fun w => w.id == p.id) then p
            else loseLives p 1) }
        let s6 := finishElimsAndMaybeGameOver s5
        Except.ok { s6 with phase :=
          if s6.winnerId.isSome then Phase.GAME_OVER else Phase.HAND_OVER }

/-! ## Knock eligibility and the action state machine -/

/-- `canKnock(state, playerId)`. -/
def canKnock (s : GameState) (playerId : Nat) : Bool :=
  if s.phase ≠ Phase.PLAYING then false
  else
    match s.players.get? s.turnIndex with
    | none => false
    | some current =>
      if current.id ≠ playerId then false
      else if s.knockedBy.isSome then false
      else if s.rules.allowKnockAnyScore then true
      else
        match s.rules.knockMinScore with
        | none => false
        | some m => decide (m ≤ handValue current.hand s.rules)

/-- The lazy initialisation `if (anyP.turnStage == null) anyP.turnStage = "START"`
performed at the top of `applyAction`. -/
def initStage (p : Player) : Player :=
  if p.turnStage = none then { p with turnStage := some TurnStage.START } else p

/-- `resetTurnStages` clears the per-turn fields of every player. -/
def clearTurn (p : Player) : Player :=
  { p with turnStage := none, drawnCardId := none, tookDiscardId := none }

def resetTurnStages (s : GameState) : GameState :=
  { s with players := s.players.map clearTurn }

/-- `advanceTurn`: clear the current player's per-turn fields, then move
`turnIndex` to the next active seat. -/
def advanceTurn (s : GameState) : GameState :=
  let s2 :=
    match s.players.get? s.turnIndex with
    | some cur => { s with players := s.players.set s.turnIndex (clearTurn cur) }
    | none => s
  { s2 with turnIndex := nextActiveIndex s2 s2.turnIndex }

/-- `refillStockFromDiscard`: keep the top discard, reshuffle the rest into
the stock under the current seed (then increment it). -/
def refillStockFromDiscard (s : GameState) : Bool × GameState :=
  if s.discard.length ≤ 1 then (false, s)
  else
    match s.discard.getLast? with
    | none => (false, s)
    | some top =>
      (true,
        { s with
          stock := shuffleInPlace s.discard.dropLast s.seed
          seed := s.seed + 1
          discard := [top]
          lastActionLog := s.lastActionLog ++
            ["Stock exhausted: reshuffled discard pile into stock."] })

/-- `Array.prototype.findIndex` on the hand, by card id (`none` for -1). -/
def findIndexBy {α : Type} (pred : α → Bool) : List α → Option Nat
| [] => none
| a :: as => if pred a then some 0 else (findIndexBy pred as).map (· + 1)

/-! ## Showdown scoring -/

/-- `state.players.find(p => p.id === pid)!.name` (empty on a missing id). -/
def nameOf (ps : List Player) (pid : Nat) : String :=
  match ps.find? (fun p => p.id == pid) with
  | some p => p.name
  | none => ""

/-- Mutation through `state.players.find(p => p.id === pid)`: apply `f` to
the first player with id `pid`, leaving the rest untouched. -/
def modifyFirstById (ps : List Player) (pid : Nat) (f : Player → Player) : List Player :=
  match ps with
  | [] => []
  | q :: rest =>
    if q.id = pid then f q :: rest else q :: modifyFirstById rest pid f

/-- The `(id, handValue)` pairs of the non-eliminated players computed at
the top of `scoreShowdown`. -/
def showdownScores (s : GameState) : List (Nat × ℚ) :=
  (s.players.filter (fun p => !p.eliminated)).map
    (fun p => (p.id, handValue p.hand s.rules))

/-- `Math.min(...scores.map(s => s.v))` (0 stands in for the empty case,
where the source would produce Infinity and an empty `lowest`). -/
def showdownMin (s : GameState) : ℚ :=
  match (showdownScores s).map Prod.snd with
  | [] => 0
  | v :: vs => vs.foldl min v

/-- The ids of the players attaining the minimum showdown value. -/
def showdownLowest (s : GameState) : List Nat :=
  ((showdownScores s).filter (fun x => x.2 == showdownMin s)).map Prod.fst

/-- One iteration of the life-loss loops in `scoreShowdown`:
log a line for seat `pid` and apply `loseLives _ 1` to it. -/
def penalizeOne (s : GameState) (msg : String) (pid : Nat) : GameState :=
  { s with
    lastActionLog := s.lastActionLog ++ [nameOf s.players pid ++ msg]
    players := modifyFirstById s.players pid (fun q => loseLives q 1) }

/-- The no-knocker / knocker-not-lowest loop: every lowest player loses 1. -/
def penalizeLowest (msg : String) : GameState → List Nat → GameState
| s, [] => s
| s, pid :: rest => penalizeLowest msg (penalizeOne s msg pid) rest

/-- The tie-including-knocker loop: every lowest player except the knocker
loses 1. -/
def penalizeLowestExcept (k : Nat) (msg : String) : GameState → List Nat → GameState
| s, [] => s
| s, pid :: rest =>
  if pid = k then penalizeLowestExcept k msg s rest
  else penalizeLowestExcept k msg (penalizeOne s msg pid) rest

/-- `scoreShowdown(state)`: compute active players' values, find the tied
lowest set, apply the knock penalties, then resolve eliminations and set
the final phase. -/
def scoreShowdown (s : GameState) : GameState :=
  let lowest := showdownLowest s
  let sLog : GameState :=
    { s with
      lastActionLog := s.lastActionLog ++
        ["Showdown. " ++ String.intercalate ", "
          ((showdownScores s).map (fun sc => nameOf s.players sc.1 ++ ":" ++ toString sc.2))] }
  let scored : GameState :=
    match s.knockedBy with
    | some k =>
      if lowest = [k] then
        let s2 : GameState :=
          { sLog with
            lastActionLog := sLog.lastActionLog ++
              [nameOf sLog.players k ++ " knocked and is the sole lowest: loses 2 lives."] }
        { s2 with players := modifyFirstById s2.players k (fun q => loseLives q 2) }
      else if k ∈ lowest then
        penalizeLowestExcept k " ties lowest with knocker: loses 1 life." sLog lowest
      else penalizeLowest " is lowest: loses 1 life." sLog lowest
    | none => penalizeLowest " is lowest: loses 1 life." sLog lowest
  let s6 := finishElimsAndMaybeGameOver scored
  { s6 with phase := if s6.winnerId.isSome then Phase.GAME_OVER else Phase.HAND_OVER }

/-! ## The action state machine (`applyAction`) -/

/-- The KNOCK branch of `applyAction`, entered with the stage-initialised
current player `p` already written back into `s`. -/
def doKnock (s : GameState) (playerId : Nat) (p : Player) : Option String × GameState :=
  if p.turnStage ≠ some TurnStage.START then
    (some "You can only knock at the start of your turn.", s)
  else if !canKnock s playerId then (some "Knock not allowed.", s)
  else
    let s2 : GameState := { s with knockedBy := some playerId, phase := Phase.KNOCKED }
    let s3 : GameState := { s2 with finalTurnsLeft := ((activePlayers s2).length : Int) - 1 }
    let s4 : GameState := { s3 with lastActionLog := s3.lastActionLog ++ [p.name ++ " knocks."] }
    (none, advanceTurn s4)

/-- The pop-into-hand tail of the DRAW_STOCK branch (`state.stock.pop()`
onward), shared by the refilled and non-refilled paths. -/
def drawFromStock (s2 : GameState) (p : Player) : Option String × GameState :=
  match s2.stock.getLast? with
  | none => (some "No cards left to draw.", s2)
  | some c =>
    (none,
      { s2 with
        stock := s2.stock.dropLast
        players := s2.players.set s2.turnIndex
          { p with
            hand := p.hand ++ [c]
            drawnCardId := some c.id
            turnStage := some TurnStage.DREW }
        lastActionLog := s2.lastActionLog ++ [p.name ++ " draws from stock."] })

/-- The DRAW_STOCK branch of `applyAction` (with the mid-branch stock
refill from the discard pile when the stock is empty). -/
def doDrawStock (s : GameState) (p : Player) : Option String × GameState :=
  if p.turnStage ≠ some TurnStage.START then (some "You already drew.", s)
  else if s.stock.length = 0 then
    match refillStockFromDiscard s with
    | (false, s2) => (some "No cards left to draw.", s2)
    | (true, s2) => drawFromStock s2 p
  else drawFromStock s p

/-- The DRAW_DISCARD branch of `applyAction`. -/
def doDrawDiscard (s : GameState) (p : Player) : Option String × GameState :=
  if p.turnStage ≠ some TurnStage.START then (some "You already drew.", s)
  else
    match s.discard.getLast? with
    | none => (some "Discard is empty.", s)
    | some c =>
      (none,
        { s with
          discard := s.discard.dropLast
          players := s.players.set s.turnIndex
            { p with
              hand := p.hand ++ [c]
              tookDiscardId := some c.id
              turnStage := some TurnStage.DREW }
          lastActionLog := s.lastActionLog ++ [p.name ++ " takes the top discard."] })

/-- The DISCARD branch of `applyAction`: move the named card to the discard
pile, then resolve immediate 31, the knocked-phase countdown, or a normal
turn advance. -/
def doDiscard (s : GameState) (p : Player) (cardId : Nat) : Option String × GameState :=
  if p.turnStage ≠ some TurnStage.DREW then (some "You must draw first.", s)
  else
    match findIndexBy (fun x => x.id == cardId) p.hand with
    | none => (some "You don\x27t have that card.", s)
    | some idx =>
      if p.tookDiscardId = some cardId then
        (some "Illegal: cannot discard the same card you took from discard.", s)
      else
        match p.hand.get? idx with
        | none => (some "You don\x27t have that card.", s)
        | some c =>
          let hand2 := p.hand.eraseIdx idx
          let sMid : GameState :=
            { s with
              players := s.players.set s.turnIndex { p with hand := hand2 }
              discard := s.discard ++ [c] }
          if hand2.length ≠ 3 then (some "Internal error: hand size not 3.", sMid)
          else if hasExact31 hand2 sMid.rules then
            let sa : GameState :=
              { sMid with lastActionLog := sMid.lastActionLog ++
                [p.name ++ " declares 31! Everyone else loses 1 life."] }
            let sb : GameState :=
              { sa with players := sa.players.map (fun op =>
                if op.eliminated then op
                else if op.id == p.id then op
                else loseLives op 1) }
            let sc := finishElimsAndMaybeGameOver sb
            let sd : GameState :=
              { sc with phase :=
                if sc.winnerId.isSome then Phase.GAME_OVER else Phase.HAND_OVER }
            (none, resetTurnStages sd)
          else
            let se : GameState :=
              { sMid with lastActionLog := sMid.lastActionLog ++ [p.name ++ " discards."] }
            if se.phase = Phase.KNOCKED then
              let sf : GameState := { se with finalTurnsLeft := se.finalTurnsLeft - 1 }
              if sf.finalTurnsLeft ≤ 0 then
                let sg := scoreShowdown { sf with phase := Phase.SHOWDOWN }
                (none, resetTurnStages sg)
              else (none, advanceTurn sf)
            else (none, advanceTurn se)

/-- `applyAction(state, playerId, action)`: `(none, s')` models `{ok:true}`
with the mutated state, `(some err, s')` models `{ok:false, error}` together
with whatever state the call left behind. -/
def applyAction (s : GameState) (playerId : Nat) (action : Action) :
    Option String × GameState :=
  if ¬(s.phase = Phase.PLAYING ∨ s.phase = Phase.KNOCKED) then
    (some "Hand is not active.", s)
  else
    match s.players.get? s.turnIndex with
    | none => (some "Not your turn.", s)
    | some p0 =>
      if p0.id ≠ playerId then (some "Not your turn.", s)
      else if p0.eliminated then (some "You are eliminated.", s)
      else
        let p := initStage p0
        let s1 : GameState := { s with players := s.players.set s.turnIndex p }
        match action with
        | Action.KNOCK => doKnock s1 playerId p
        | Action.DRAW_STOCK => doDrawStock s1 p
        | Action.DRAW_DISCARD => doDrawDiscard s1 p
        | Action.DISCARD cardId => doDiscard s1 p cardId

/-! ## Perspective view projector (`makeClientView`) -/

structure SeatView where
  id : Nat
  name : String
  type : PlayerType
  lives : Int
  eliminated : Bool
  handCount : Nat
  revealedHand : Option (List Card)
  revealedValue : Option ℚ
deriving DecidableEq, Repr

structure YouView where
  id : Nat
  name : String
  hand : List Card
  canAct : Bool
  canKnock : Bool
  mustDiscard : Bool
deriving DecidableEq, Repr

structure ClientView where
  roomId : String
  rules : Rules
  players : List SeatView
  dealerIndex : Nat
  turnPlayerId : Option Nat
  phase : Phase
  knockedBy : Option Nat
  stockCount : Nat
  topDiscard : Option Card
  you : Option YouView
  log : List String
deriving DecidableEq, Repr

/-- `makeClientView(state, viewerId)` (`viewerId = none` is the spectator
view; the source's `turnPlayer?.id ?? ""` missing-seat sentinel is `none`). -/
def makeClientView (s : GameState) (viewerId : Option Nat) : ClientView :=
  let turnPlayer := s.players.get? s.turnIndex
  let you : Option Player :=
    match viewerId with
    | some vid => s.players.find? (fun p => p.id == vid)
    | none => none
  let revealAll : Bool :=
    decide (s.phase = Phase.SHOWDOWN ∨ s.phase = Phase.HAND_OVER ∨ s.phase = Phase.GAME_OVER)
  let mustDiscard : Bool :=
    match you with
    | some y => decide (y.turnStage = some TurnStage.DREW)
    | none => false
  { roomId := s.roomId
    rules := s.rules
    players := s.players.map (fun p =>
      let revealThis : Bool :=
        revealAll ||
          (match viewerId with
           | some vid => decide (p.id = vid)
           | none => false)
      { id := p.id
        name := p.name
        type := p.type
        lives := p.lives
        eliminated := p.eliminated
        handCount := p.hand.length
        revealedHand := if revealThis then some p.hand else none
        revealedValue := if revealAll then some (handValue p.hand s.rules) else none })
    dealerIndex := s.dealerIndex
    turnPlayerId := turnPlayer.map Player.id
    phase := s.phase
    knockedBy := s.knockedBy
    stockCount := s.stock.length
    topDiscard := s.discard.getLast?
    you := you.map (fun y =>
      { id := y.id
        name := y.name
        hand := y.hand
        canAct := decide ((s.phase = Phase.PLAYING ∨ s.phase = Phase.KNOCKED) ∧
          turnPlayer.map Player.id = some y.id)
        canKnock := canKnock s y.id
        mustDiscard := mustDiscard })
    log := s.lastActionLog.drop (s.lastActionLog.length - 12) }

/-! ## CPU decision policy (room module) -/

inductive CpuDifficulty
| easy
| medium
| hard
deriving DecidableEq, Repr

/-- Knock thresholds: easy 28, medium 27, hard 25. -/
def knockThreshold : CpuDifficulty → ℚ
| CpuDifficulty.easy => 28
| CpuDifficulty.medium => 27
| CpuDifficulty.hard => 25

/-- Discard-take biases: easy 0.2, medium 0.6, hard 0.9. -/
def takeDiscardBias : CpuDifficulty → ℚ
| CpuDifficulty.easy => mkRat 2 10
| CpuDifficulty.medium => mkRat 6 10
| CpuDifficulty.hard => mkRat 9 10

/-- `bestValueAfterAdding(hand, add, rules)`: the best 3-card value over all
ways of dropping one card (by id) from `hand ++ [add]`. -/
def bestValueAfterAdding (hand : List Card) (add : Card) (rules : Rules) : ℚ :=
  let cards := hand ++ [add]
  cards.foldl
    (fun best c =>
      let three := cards.filter (fun x => x.id ≠ c.id)
      let v := handValue three rules
      if best < v then v else best)
    (-1)

/-- `chooseBestDiscard(hand4, rules)`: the id whose removal maximises the
remaining 3-card value (first maximiser wins; `hand4[0].id` seeds it). -/
def chooseBestDiscard (hand4 : List Card) (rules : Rules) : Nat :=
  match hand4 with
  | [] => 0
  | h0 :: _ =>
    (hand4.foldl
      (fun acc c =>
        let three := hand4.filter (fun x => x.id ≠ c.id)
        let v := handValue three rules
        if acc.1 < v then (v, c.id) else acc)
      ((-1 : ℚ), h0.id)).2

/-- `chooseDiscardEasy`: with probability 0.6 a uniformly random card,
otherwise the value-maximising discard.  The two `Math.random()` draws are
passed in explicitly as `r1` (the dice roll) and `r2` (the index roll). -/
def chooseDiscardEasy (hand4 : List Card) (rules : Rules) (r1 r2 : ℚ) : Nat :=
  if r1 < mkRat 6 10 then
    match hand4.get? (r2 * (hand4.length : ℚ)).floor.toNat with
    | some c => c.id
    | none => 0
  else chooseBestDiscard hand4 rules

/-- `chooseBestDiscardHard`: value plus a 0.15 bonus when the remaining
three cards hold at least two of one suit. -/
def chooseBestDiscardHard (hand4 : List Card) (rules : Rules) : Nat :=
  match hand4 with
  | [] => 0
  | h0 :: _ =>
    (hand4.foldl
      (fun acc c =>
        let three := hand4.filter (fun x => x.id ≠ c.id)
        let v := handValue three rules
        let maxSuit :=
          max (max (max (three.countP (fun t => t.suit == Suit.S))
                (three.countP (fun t => t.suit == Suit.H)))
              (three.countP (fun t => t.suit == Suit.D)))
            (three.countP (fun t => t.suit == Suit.C))
        let suitedBonus : ℚ := if 2 ≤ maxSuit then mkRat 15 100 else 0
        let score := v + suitedBonus
        if acc.1 < score then (score, c.id) else acc)
      ((mkRat (-1000000000) 1 : ℚ), h0.id)).2

/-- The discard-take decision of `maybeRunCpuTurn`: take the visible top
discard when doing so improves the best achievable 3-card value — always
for `hard`, with probability `takeDiscardBias` (roll `rTake`) otherwise. -/
def cpuTakeDiscard (diff : CpuDifficulty) (s : GameState) (p : Player) (rTake : ℚ) :
    Bool :=
  match s.discard.getLast? with
  | none => false
  | some t =>
    let improves :=
      decide (handValue p.hand s.rules < bestValueAfterAdding p.hand t s.rules)
    if diff = CpuDifficulty.hard then improves
    else improves && decide (rTake < takeDiscardBias diff)

/-- The draw-then-discard tail of `maybeRunCpuTurn` (everything after the
knock decision). -/
def cpuDrawAndDiscard (diff : CpuDifficulty) (s : GameState) (p : Player)
    (rTake r1 r2 : ℚ) : GameState × List Action :=
  let drawAction :=
    if cpuTakeDiscard diff s p rTake then Action.DRAW_DISCARD else Action.DRAW_STOCK
  match applyAction s p.id drawAction with
  | (some _, s2) => (s2, [])
  | (none, s2) =>
    let hand4 :=
      match s2.players.get? s2.turnIndex with
      | some q => q.hand
      | none => []
    let discardId :=
      match diff with
      | CpuDifficulty.easy => chooseDiscardEasy hand4 s2.rules r1 r2
      | CpuDifficulty.medium => chooseBestDiscard hand4 s2.rules
      | CpuDifficulty.hard => chooseBestDiscardHard hand4 s2.rules
    match applyAction s2 p.id (Action.DISCARD discardId) with
    | (some _, s3) => (s3, [drawAction])
    | (none, s3) => (s3, [drawAction, Action.DISCARD discardId])

/-- `maybeRunCpuTurn(room, onAction)`: returns the state left behind and the
list of actions reported through `onAction` (in order).  The three
`Math.random()` draws the source may make are passed explicitly
(`rTake` for the discard-take roll, `r1`/`r2` for easy's discard choice). -/
def maybeRunCpuTurn (diff : CpuDifficulty) (s : GameState) (rTake r1 r2 : ℚ) :
    GameState × List Action :=
  if ¬(s.phase = Phase.PLAYING ∨ s.phase = Phase.KNOCKED) then (s, [])
  else
    match s.players.get? s.turnIndex with
    | none => (s, [])
    | some p =>
      if p.eliminated then (s, [])
      else if p.type ≠ PlayerType.CPU then (s, [])
      else
        if knockThreshold diff ≤ handValue p.hand s.rules then
          match applyAction s p.id Action.KNOCK with
          | (none, s2) => (s2, [Action.KNOCK])
          | (some _, s2) => (s2, [])
        else cpuDrawAndDiscard diff s p rTake r1 r2

/-! ## Helper lemmas on lists -/

theorem get?_some_lt {α : Type} {l : List α} {i : Nat} {a : α}
    (h : l.get? i = some a) : i < l.length := by
  rw [List.get?_eq_some] at h
  exact h.1

theorem set_get?_self {α : Type} {l : List α} {i : Nat} {a : α}
    (h : l.get? i = some a) : l.set i a = l := by
  induction l generalizing i with
  | nil => simp at h
  | cons x xs ih =>
    cases i with
    | zero =>
      have hx : x = a := by
        have h' : some x = some a := h
        injection h'
      subst hx
      rfl
    | succ j =>
      have h' : xs.get? j = some a := h
      show x :: xs.set j a = x :: xs
      rw [ih h']

theorem findIndexBy_some {α : Type} {pred : α → Bool} {l : List α} {i : Nat}
    (h : findIndexBy pred l = some i) :
    ∃ a, l.get? i = some a ∧ pred a = true := by
  induction l generalizing i with
  | nil => simp [findIndexBy] at h
  | cons x xs ih =>
    by_cases hx : pred x
    · simp [findIndexBy, hx] at h
      exact ⟨x, by simp [← h], hx⟩
    · simp [findIndexBy, hx] at h
      obtain ⟨j, hj, rfl⟩ := h
      obtain ⟨a, ha, hpa⟩ := ih hj
      exact ⟨a, by simpa using ha, hpa⟩

theorem shuffleGo_length {α : Type} (arr : List α) (st n : Nat) :
    (shuffleGo arr st n).length = arr.length := by
  induction n generalizing arr st with
  | zero => rfl
  | succ m ih =>
    rw [shuffleGo]
    cases h1 : arr.get? (m + 1) <;> cases h2 : arr.get? (lcgNext st * (m + 2) / 4294967296)
    all_goals simp [ih, h1, h2]

theorem shuffleInPlace_length {α : Type} (arr : List α) (seed : Nat) :
    (shuffleInPlace arr seed).length = arr.length := by
  unfold shuffleInPlace
  cases h : arr.length with
  | zero => exact h
  | succ n => rw [shuffleGo_length]; exact h

/-! ## C8: the hand-value engine is order-invariant -/

theorem foldl_suit_perm (su : Suit) {l l' : List Card} (h : l.Perm l') :
    ∀ acc : Nat,
      l.foldl (fun acc c => if c.suit = su then acc + rankValue c.rank else acc) acc =
        l'.foldl (fun acc c => if c.suit = su then acc + rankValue c.rank else acc) acc := by
  induction h with
  | nil => intro acc; rfl
  | cons x _ ih =>
    intro acc
    simp only [List.foldl_cons]
    exact ih _
  | swap x y l =>
    intro acc
    simp only [List.foldl_cons]
    congr 1
    by_cases hx : x.suit = su <;> by_cases hy : y.suit = su <;>
      simp [hx, hy, Nat.add_right_comm]
  | trans _ _ ih1 ih2 =>
    intro acc
    rw [ih1, ih2]

theorem suitSum_perm {l l' : List Card} (h : l.Perm l') (su : Suit) :
    suitSum l su = suitSum l' su :=
  foldl_suit_perm su h 0

theorem foldl_max_perm {l l' : List Nat} (h : l.Perm l') :
    ∀ a : Nat, l.foldl max a = l'.foldl max a := by
  induction h with
  | nil => intro a; rfl
  | cons x _ ih =>
    intro a
    simp only [List.foldl_cons]
    exact ih _
  | swap x y l =>
    intro a
    simp only [List.foldl_cons]
    rw [Nat.max_assoc, Nat.max_assoc, Nat.max_comm y x]
  | trans _ _ ih1 ih2 =>
    intro a
    rw [ih1, ih2]

theorem bestSingle_perm {l l' : List Card} (h : l.Perm l') :
    bestSingle l = bestSingle l' := by
  unfold bestSingle
  exact foldl_max_perm (h.map _) 0

theorem bestSuitSum_perm {l l' : List Card} (h : l.Perm l') :
    bestSuitSum l = bestSuitSum l' := by
  unfold bestSuitSum
  rw [suitSum_perm h Suit.S, suitSum_perm h Suit.H, suitSum_perm h Suit.D,
    suitSum_perm h Suit.C]

theorem naturalHandValue_perm {l l' : List Card} (h : l.Perm l') :
    naturalHandValue l = naturalHandValue l' := by
  unfold naturalHandValue
  rw [bestSuitSum_perm h, bestSingle_perm h]

theorem isThreeOfKind_eq (l : List Card) :
    isThreeOfKind l =
      decide (l.length = 3 ∧ ∀ x ∈ l, ∀ y ∈ l, x.rank = y.rank) := by
  match l with
  | [] => simp [isThreeOfKind]
  | [a] => simp [isThreeOfKind]
  | [a, b] => simp [isThreeOfKind]
  | [a, b, c] =>
    simp only [isThreeOfKind, List.length_cons, List.length_nil, decide_eq_decide]
    constructor
    · rintro ⟨h1, h2⟩
      refine ⟨by trivial, ?_⟩
      intro x hx y hy
      simp only [List.mem_cons, List.not_mem_nil, or_false] at hx hy
      rcases hx with rfl | rfl | rfl <;> rcases hy with rfl | rfl | rfl <;>
        first
        | rfl
        | exact h1
        | exact h1.symm
        | exact h2
        | exact h2.symm
        | exact h1.trans h2
        | exact (h1.trans h2).symm
    · rintro ⟨-, h⟩
      exact ⟨h a (by simp) b (by simp), h b (by simp) c (by simp)⟩
  | a :: b :: c :: d :: rest =>
    simp [isThreeOfKind]

theorem isThreeOfKind_perm {l l' : List Card} (h : l.Perm l') :
    isThreeOfKind l = isThreeOfKind l' := by
  rw [isThreeOfKind_eq, isThreeOfKind_eq]
  simp only [decide_eq_decide, h.length_eq]
  constructor
  · rintro ⟨h1, h2⟩
    exact ⟨h1, fun x hx y hy => h2 x (h.mem_iff.mpr hx) y (h.mem_iff.mpr hy)⟩
  · rintro ⟨h1, h2⟩
    exact ⟨h1, fun x hx y hy => h2 x (h.mem_iff.mp hx) y (h.mem_iff.mp hy)⟩

theorem handValue_perm (rules : Rules) {l l' : List Card} (h : l.Perm l') :
    handValue l rules = handValue l' rules := by
  unfold handValue
  rw [h.length_eq]
  by_cases hlen : l'.length ≠ 3
  · simp [hlen]
  · simp only [hlen, if_false]
    cases rules.threeOfKindValue with
    | none => exact naturalHandValue_perm h
    | some v =>
      rw [isThreeOfKind_perm h]
      by_cases h3 : isThreeOfKind l' <;> simp [h3, naturalHandValue_perm h]

/-- C8: `handValue` is invariant under reordering the 3 cards; a configured
three-of-a-kind always scores the configured fixed value; otherwise a 3-card
hand scores the maximum of the best same-suit sum and the best single
card's rank value. -/
theorem C8_handValue_spec :
    (∀ (rules : Rules) (l l' : List Card), l.Perm l' →
      handValue l rules = handValue l' rules)
  ∧ (∀ (rules : Rules) (v : ℚ) (a b c : Card), rules.threeOfKindValue = some v →
      a.rank = b.rank → b.rank = c.rank → handValue [a, b, c] rules = v)
  ∧ (∀ (rules : Rules) (a b c : Card),
      (rules.threeOfKindValue = none ∨ ¬(a.rank = b.rank ∧ b.rank = c.rank)) →
      handValue [a, b, c] rules =
        ((max (bestSuitSum [a, b, c]) (bestSingle [a, b, c]) : Nat) : ℚ)) := by
  refine ⟨fun rules l l' h => handValue_perm rules h, ?_, ?_⟩
  · intro rules v a b c hv h1 h2
    simp [handValue, hv, isThreeOfKind, h1, h2]
  · intro rules a b c hcase
    rcases hcase with hnone | hnk
    · simp [handValue, hnone, naturalHandValue]
    · cases hv : rules.threeOfKindValue with
      | none => simp [handValue, hv, naturalHandValue]
      | some v =>
        simp [handValue, hv, isThreeOfKind, naturalHandValue, hnk]

/-- Witness for C8 at concrete inputs. -/
theorem C8_handValue_spec_witness :
    ([(⟨Suit.S, Rank.A, 0⟩ : Card), ⟨Suit.H, Rank.K, 1⟩, ⟨Suit.S, Rank.R7, 2⟩].Perm
      [⟨Suit.S, Rank.R7, 2⟩, ⟨Suit.S, Rank.A, 0⟩, ⟨Suit.H, Rank.K, 1⟩])
  ∧ handValue [(⟨Suit.S, Rank.A, 0⟩ : Card), ⟨Suit.H, Rank.K, 1⟩, ⟨Suit.S, Rank.R7, 2⟩]
      ⟨3, true, none, some (mkRat 61 2)⟩ =
    handValue [(⟨Suit.S, Rank.R7, 2⟩ : Card), ⟨Suit.S, Rank.A, 0⟩, ⟨Suit.H, Rank.K, 1⟩]
      ⟨3, true, none, some (mkRat 61 2)⟩
  ∧ handValue [(⟨Suit.S, Rank.Q, 0⟩ : Card), ⟨Suit.H, Rank.Q, 1⟩, ⟨Suit.D, Rank.Q, 2⟩]
      ⟨3, true, none, some (mkRat 61 2)⟩ = mkRat 61 2
  ∧ handValue [(⟨Suit.S, Rank.Q, 0⟩ : Card), ⟨Suit.H, Rank.R9, 1⟩, ⟨Suit.D, Rank.R2, 2⟩]
      ⟨3, true, none, some (mkRat 61 2)⟩ =
    ((max (bestSuitSum [(⟨Suit.S, Rank.Q, 0⟩ : Card), ⟨Suit.H, Rank.R9, 1⟩, ⟨Suit.D, Rank.R2, 2⟩])
      (bestSingle [(⟨Suit.S, Rank.Q, 0⟩ : Card), ⟨Suit.H, Rank.R9, 1⟩, ⟨Suit.D, Rank.R2, 2⟩]) : Nat) : ℚ) :=
  ⟨by decide,
    C8_handValue_spec.1 _ _ _ (by decide),
    C8_handValue_spec.2.1 _ _ _ _ _ rfl rfl rfl,
    C8_handValue_spec.2.2 _ _ _ _ (Or.inr (by decide))⟩

/-! ## C1: the deal loop of `startHand`

`startHand` builds its deal order by stepping `nextActiveIndex` once per
*seat* (eliminated seats included), so with any eliminated seat the active
seats appear several times in the order and receive more than 3 cards.
The concrete state below (3 seats, seat 2 eliminated, dealer 0) produces
the deal order `[1, 0, 1]`: seat 1 is dealt 6 cards. -/

/-- A fresh player for concrete test states. -/
def mkTestPlayer (i : Nat) (nm : String) (elim : Bool) : Player :=
  { id := i, name := nm, type := PlayerType.HUMAN, hand := [],
    lives := 3, eliminated := elim }

def defaultRules : Rules :=
  ⟨3, true, none, some (mkRat 61 2)⟩

/-- 3 seats, seat 2 eliminated, dealer seat 0: the configuration left behind
by an elimination in a 3-player game, about to be redealt. -/
def C1state : GameState :=
  { roomId := "R", rules := defaultRules,
    players := [mkTestPlayer 0 "A" false, mkTestPlayer 1 "B" false, mkTestPlayer 2 "C" true],
    dealerIndex := 0, turnIndex := 0, phase := Phase.HAND_OVER, knockedBy := none,
    finalTurnsLeft := 0, stock := [], discard := [], lastActionLog := [],
    winnerId := none, seed := 7 }

/-- C1 (code bug): redealing `C1state` deals 3 cards to seat 0 but 6 cards
to seat 1 (and the deal order visits seat 1 twice), contradicting the
3-cards-each invariant claimed for `startHand` under eliminations. -/
theorem C1_deal_bug :
    buildOrder { C1state with
      stock := makeDeck C1state.seed
      players := C1state.players.map (fun p => { p with hand := [] }) } = [1, 0, 1]
  ∧ ((startHand C1state).toOption).map
      (fun t => t.players.map (fun p => p.hand.length)) = some [3, 6, 0] := by
  constructor
  · decide
  · decide

/-! ## C2: rejections and the state they leave behind

`applyAction` initialises the acting player's `turnStage` from unset to
`START` *before* validating the action, so a rejection can leave that one
field changed; and the internal hand-size rejection fires only after the
card has been moved.  `stageInit` names the stage-initialised state. -/

/-- `s` with the current player's `turnStage` lazily initialised, exactly as
the top of `applyAction` leaves it. -/
def stageInit (s : GameState) : GameState :=
  match s.players.get? s.turnIndex with
  | some p0 => { s with players := s.players.set s.turnIndex (initStage p0) }
  | none => s

theorem refill_false {s s2 : GameState}
    (h : refillStockFromDiscard s = (false, s2)) : s2 = s := by
  unfold refillStockFromDiscard at h
  split at h
  · injection h with h1 h2
    exact h2.symm
  · split at h
    · injection h with h1 h2
      exact h2.symm
    · injection h with h1 h2
      cases h1

theorem refill_true_stock {s s2 : GameState}
    (h : refillStockFromDiscard s = (true, s2)) : s2.stock ≠ [] := by
  unfold refillStockFromDiscard at h
  split at h
  · injection h with h1 h2
    cases h1
  · split at h
    · injection h with h1 h2
      cases h1
    · injection h with h1 h2
      rename_i hlen _ _
      intro hc
      rw [← h2] at hc
      simp only at hc
      have hl := shuffleInPlace_length s.discard.dropLast s.seed
      rw [hc] at hl
      rw [List.length_dropLast] at hl
      simp at hl
      omega

theorem doKnock_reject {s : GameState} {pid : Nat} {p : Player} {err : String}
    {s' : GameState} (h : doKnock s pid p = (some err, s')) : s' = s := by
  unfold doKnock at h
  split at h
  · injection h with h1 h2
    exact h2.symm
  · split at h
    · injection h with h1 h2
      exact h2.symm
    · injection h with h1 h2
      cases h1

theorem drawFromStock_reject {s2 : GameState} {p : Player} {err : String}
    {s' : GameState} (h : drawFromStock s2 p = (some err, s')) :
    s' = s2 ∧ s2.stock = [] := by
  unfold drawFromStock at h
  split at h
  · rename_i hlast
    injection h with h1 h2
    exact ⟨h2.symm, List.getLast?_eq_none_iff.mp hlast⟩
  · injection h with h1 h2
    cases h1

theorem doDrawStock_reject {s : GameState} {p : Player} {err : String}
    {s' : GameState} (h : doDrawStock s p = (some err, s')) : s' = s := by
  unfold doDrawStock at h
  split at h
  · injection h with h1 h2
    exact h2.symm
  · split at h
    · split at h
      · rename_i hr
        injection h with h1 h2
        rw [← h2]
        exact (refill_false hr).symm ▸ rfl
      · rename_i hr
        exact absurd (drawFromStock_reject h).2 (refill_true_stock hr)
    · rename_i hlen
      obtain ⟨hs, hstock⟩ := drawFromStock_reject h
      exact absurd (by rw [hstock]; rfl) hlen

theorem doDrawDiscard_reject {s : GameState} {p : Player} {err : String}
    {s' : GameState} (h : doDrawDiscard s p = (some err, s')) : s' = s := by
  unfold doDrawDiscard at h
  split at h
  · injection h with h1 h2
    exact h2.symm
  · split at h
    · injection h with h1 h2
      exact h2.symm
    · injection h with h1 h2
      cases h1

theorem doDiscard_reject {s : GameState} {p : Player} {cid : Nat} {err : String}
    {s' : GameState} (h : doDiscard s p cid = (some err, s'))
    (hne : err ≠ "Internal error: hand size not 3.") : s' = s := by
  unfold doDiscard at h
  split at h
  · injection h with h1 h2
    exact h2.symm
  · split at h
    · injection h with h1 h2
      exact h2.symm
    · split at h
      · injection h with h1 h2
        exact h2.symm
      · split at h
        · injection h with h1 h2
          exact h2.symm
        · simp only [] at h
          split at h
          · injection h with h1 h2
            refine absurd ?_ hne
            injection h1 with h3
            exact h3.symm
          · split at h
            · injection h with h1 h2
              cases h1
            · split at h
              · split at h
                · injection h with h1 h2
                  cases h1
                · injection h with h1 h2
                  cases h1
              · injection h with h1 h2
                cases h1

/-- C2 (amended): a rejection other than the internal hand-size error leaves
the state unchanged except that the acting player's `turnStage` may have
been lazily initialised from unset to `START`. -/
theorem C2_applyAction_reject_frame (s : GameState) (pid : Nat) (a : Action)
    (err : String) (s' : GameState)
    (h : applyAction s pid a = (some err, s'))
    (hne : err ≠ "Internal error: hand size not 3.") :
    s' = s ∨ s' = stageInit s := by
  unfold applyAction at h
  split at h
  · left
    injection h with h1 h2
    exact h2.symm
  · split at h
    · left
      injection h with h1 h2
      exact h2.symm
    · rename_i p0 heq
      split at h
      · left
        injection h with h1 h2
        exact h2.symm
      · split at h
        · left
          injection h with h1 h2
          exact h2.symm
        · have hstage : stageInit s =
              { s with players := s.players.set s.turnIndex (initStage p0) } := by
            unfold stageInit
            rw [heq]
          right
          rw [hstage]
          cases a with
          | KNOCK => exact doKnock_reject h
          | DRAW_STOCK => exact doDrawStock_reject h
          | DRAW_DISCARD => exact doDrawDiscard_reject h
          | DISCARD cid => exact doDiscard_reject h hne

/-- A 1-seat state whose player is at the start of their turn
(`turnStage` unset), used to exercise rejection paths concretely. -/
def C2state : GameState :=
  { roomId := "R", rules := defaultRules,
    players := [{ mkTestPlayer 0 "A" false with
      hand := [⟨Suit.S, Rank.A, 0⟩, ⟨Suit.H, Rank.K, 1⟩, ⟨Suit.D, Rank.Q, 2⟩] }],
    dealerIndex := 0, turnIndex := 0, phase := Phase.PLAYING, knockedBy := none,
    finalTurnsLeft := 0, stock := [], discard := [], lastActionLog := [],
    winnerId := none, seed := 1 }

/-- C2 counterexample: a rejected DISCARD ("You must draw first.") leaves a
state that differs from the input: the acting player's `turnStage` went from
unset to `START`. -/
theorem C2_counterexample :
    (applyAction C2state 0 (Action.DISCARD 5)).1 = some "You must draw first."
  ∧ (applyAction C2state 0 (Action.DISCARD 5)).2 ≠ C2state
  ∧ ((applyAction C2state 0 (Action.DISCARD 5)).2.players.get? 0).map Player.turnStage =
      some (some TurnStage.START)
  ∧ (C2state.players.get? 0).map Player.turnStage = some none := by decide

/-- Witness for the amended C2 at a concrete input. -/
theorem C2_applyAction_reject_frame_witness :
    applyAction C2state 0 (Action.DISCARD 5) =
      (some "You must draw first.", (applyAction C2state 0 (Action.DISCARD 5)).2)
  ∧ ("You must draw first." ≠ "Internal error: hand size not 3.")
  ∧ ((applyAction C2state 0 (Action.DISCARD 5)).2 = C2state ∨
      (applyAction C2state 0 (Action.DISCARD 5)).2 = stageInit C2state) :=
  ⟨by decide, by decide,
    C2_applyAction_reject_frame C2state 0 (Action.DISCARD 5) "You must draw first."
      ((applyAction C2state 0 (Action.DISCARD 5)).2) (by decide) (by decide)⟩

/-! ## Guard analysis of `applyAction` -/

theorem initStage_of_some {p : Player} {t : TurnStage}
    (h : p.turnStage = some t) : initStage p = p := by
  unfold initStage
  rw [h]
  simp

@[simp] theorem initStage_id (p : Player) : (initStage p).id = p.id := by
  unfold initStage
  split <;> rfl

@[simp] theorem initStage_name (p : Player) : (initStage p).name = p.name := by
  unfold initStage
  split <;> rfl

@[simp] theorem initStage_hand (p : Player) : (initStage p).hand = p.hand := by
  unfold initStage
  split <;> rfl

@[simp] theorem initStage_eliminated (p : Player) :
    (initStage p).eliminated = p.eliminated := by
  unfold initStage
  split <;> rfl

@[simp] theorem clearTurn_initStage (p : Player) :
    clearTurn (initStage p) = clearTurn p := by
  unfold initStage clearTurn
  split <;> rfl

theorem applyAction_eq_handler (s : GameState) (pid : Nat) (a : Action) (p0 : Player)
    (hph : s.phase = Phase.PLAYING ∨ s.phase = Phase.KNOCKED)
    (hget : s.players.get? s.turnIndex = some p0)
    (hid : p0.id = pid) (helim : p0.eliminated = false) :
    applyAction s pid a =
      (match a with
       | Action.KNOCK =>
         doKnock { s with players := s.players.set s.turnIndex (initStage p0) } pid
           (initStage p0)
       | Action.DRAW_STOCK =>
         doDrawStock { s with players := s.players.set s.turnIndex (initStage p0) }
           (initStage p0)
       | Action.DRAW_DISCARD =>
         doDrawDiscard { s with players := s.players.set s.turnIndex (initStage p0) }
           (initStage p0)
       | Action.DISCARD cid =>
         doDiscard { s with players := s.players.set s.turnIndex (initStage p0) }
           (initStage p0) cid) := by
  unfold applyAction
  rw [if_neg (not_not_intro hph), hget]
  simp only [hid, helim, ne_eq, not_true_eq_false, Bool.false_eq_true, if_false]

theorem applyAction_KNOCK_eq (s : GameState) (pid : Nat) (p0 : Player)
    (hph : s.phase = Phase.PLAYING ∨ s.phase = Phase.KNOCKED)
    (hget : s.players.get? s.turnIndex = some p0)
    (hid : p0.id = pid) (helim : p0.eliminated = false) :
    applyAction s pid Action.KNOCK =
      doKnock { s with players := s.players.set s.turnIndex (initStage p0) } pid
        (initStage p0) :=
  applyAction_eq_handler s pid Action.KNOCK p0 hph hget hid helim

theorem applyAction_DRAW_STOCK_eq (s : GameState) (pid : Nat) (p0 : Player)
    (hph : s.phase = Phase.PLAYING ∨ s.phase = Phase.KNOCKED)
    (hget : s.players.get? s.turnIndex = some p0)
    (hid : p0.id = pid) (helim : p0.eliminated = false) :
    applyAction s pid Action.DRAW_STOCK =
      doDrawStock { s with players := s.players.set s.turnIndex (initStage p0) }
        (initStage p0) :=
  applyAction_eq_handler s pid Action.DRAW_STOCK p0 hph hget hid helim

theorem applyAction_DRAW_DISCARD_eq (s : GameState) (pid : Nat) (p0 : Player)
    (hph : s.phase = Phase.PLAYING ∨ s.phase = Phase.KNOCKED)
    (hget : s.players.get? s.turnIndex = some p0)
    (hid : p0.id = pid) (helim : p0.eliminated = false) :
    applyAction s pid Action.DRAW_DISCARD =
      doDrawDiscard { s with players := s.players.set s.turnIndex (initStage p0) }
        (initStage p0) :=
  applyAction_eq_handler s pid Action.DRAW_DISCARD p0 hph hget hid helim

theorem applyAction_DISCARD_eq (s : GameState) (pid cid : Nat) (p0 : Player)
    (hph : s.phase = Phase.PLAYING ∨ s.phase = Phase.KNOCKED)
    (hget : s.players.get? s.turnIndex = some p0)
    (hid : p0.id = pid) (helim : p0.eliminated = false) :
    applyAction s pid (Action.DISCARD cid) =
      doDiscard { s with players := s.players.set s.turnIndex (initStage p0) }
        (initStage p0) cid :=
  applyAction_eq_handler s pid (Action.DISCARD cid) p0 hph hget hid helim

/-! ## C9: the internal hand-size rejection is unreachable from a 4-card
DREW state -/

/-- C9: with the acting, non-eliminated player at stage DREW holding 4
cards, a DISCARD of a held card other than the one taken from the discard
never produces the internal hand-size rejection. -/
theorem C9_no_internal_error (s : GameState) (pid cid : Nat) (p0 : Player) (idx : Nat)
    (hph : s.phase = Phase.PLAYING ∨ s.phase = Phase.KNOCKED)
    (hget : s.players.get? s.turnIndex = some p0)
    (hid : p0.id = pid) (helim : p0.eliminated = false)
    (hstage : p0.turnStage = some TurnStage.DREW)
    (hhand : p0.hand.length = 4)
    (hfind : findIndexBy (fun x => x.id == cid) p0.hand = some idx)
    (htook : p0.tookDiscardId ≠ some cid) :
    (applyAction s pid (Action.DISCARD cid)).1 ≠
      some "Internal error: hand size not 3." := by
  rw [applyAction_DISCARD_eq s pid cid p0 hph hget hid helim]
  rw [initStage_of_some hstage]
  unfold doDiscard
  rw [if_neg (by simp [hstage]), hfind]
  obtain ⟨c, hc, hpc⟩ := findIndexBy_some hfind
  have hlt : idx < p0.hand.length := get?_some_lt hc
  have herase : (p0.hand.eraseIdx idx).length = 3 := by
    rw [List.length_eraseIdx_of_lt hlt, hhand]
  simp only [if_neg htook, hc]
  rw [if_neg (not_not_intro herase)]
  split
  · simp
  · split
    · split <;> simp
    · simp

/-- A concrete 4-card DREW player for the C9 witness. -/
def C9player : Player :=
  { mkTestPlayer 0 "A" false with
    hand := [⟨Suit.S, Rank.A, 0⟩, ⟨Suit.H, Rank.K, 1⟩, ⟨Suit.D, Rank.Q, 2⟩,
      ⟨Suit.C, Rank.R9, 3⟩],
    turnStage := some TurnStage.DREW,
    drawnCardId := some 3 }

def C9state : GameState :=
  { roomId := "R", rules := defaultRules,
    players := [C9player],
    dealerIndex := 0, turnIndex := 0, phase := Phase.PLAYING, knockedBy := none,
    finalTurnsLeft := 0, stock := [], discard := [], lastActionLog := [],
    winnerId := none, seed := 1 }

theorem C9_no_internal_error_witness :
    (C9state.phase = Phase.PLAYING ∨ C9state.phase = Phase.KNOCKED)
  ∧ C9state.players.get? C9state.turnIndex = some C9player
  ∧ C9player.turnStage = some TurnStage.DREW
  ∧ C9player.hand.length = 4
  ∧ (applyAction C9state 0 (Action.DISCARD 1)).1 ≠
      some "Internal error: hand size not 3." :=
  ⟨Or.inl rfl, by decide, by decide, by decide,
    C9_no_internal_error C9state 0 1 C9player 1 (Or.inl rfl) (by decide) (by decide)
      (by decide) (by decide) (by decide) (by decide) (by decide)⟩

/-! ## C10: frame of a successful KNOCK -/

theorem filter_length_set {α : Type} (pred : α → Bool) {l : List α} {i : Nat} {a b : α}
    (hget : l.get? i = some b) (hp : pred a = pred b) :
    ((l.set i a).filter pred).length = (l.filter pred).length := by
  induction l generalizing i with
  | nil => cases hget
  | cons x xs ih =>
    cases i with
    | zero =>
      have hx : x = b := by
        have h' : some x = some b := hget
        injection h'
      subst hx
      show ((a :: xs).filter pred).length = ((x :: xs).filter pred).length
      simp only [List.filter_cons, ← hp]
      cases hpa : pred a <;> simp [hpa]
    | succ j =>
      have h' : xs.get? j = some b := hget
      show ((x :: xs.set j a).filter pred).length = ((x :: xs).filter pred).length
      simp only [List.filter_cons]
      cases hpx : pred x <;> simp [ih h']

@[simp] theorem advanceTurn_stock (s : GameState) : (advanceTurn s).stock = s.stock := by
  unfold advanceTurn
  split <;> rfl

@[simp] theorem advanceTurn_discard (s : GameState) :
    (advanceTurn s).discard = s.discard := by
  unfold advanceTurn
  split <;> rfl

@[simp] theorem advanceTurn_phase (s : GameState) : (advanceTurn s).phase = s.phase := by
  unfold advanceTurn
  split <;> rfl

@[simp] theorem advanceTurn_knockedBy (s : GameState) :
    (advanceTurn s).knockedBy = s.knockedBy := by
  unfold advanceTurn
  split <;> rfl

@[simp] theorem advanceTurn_finalTurnsLeft (s : GameState) :
    (advanceTurn s).finalTurnsLeft = s.finalTurnsLeft := by
  unfold advanceTurn
  split <;> rfl

@[simp] theorem advanceTurn_lastActionLog (s : GameState) :
    (advanceTurn s).lastActionLog = s.lastActionLog := by
  unfold advanceTurn
  split <;> rfl

@[simp] theorem advanceTurn_roomId (s : GameState) : (advanceTurn s).roomId = s.roomId := by
  unfold advanceTurn
  split <;> rfl

@[simp] theorem advanceTurn_rules (s : GameState) : (advanceTurn s).rules = s.rules := by
  unfold advanceTurn
  split <;> rfl

@[simp] theorem advanceTurn_dealerIndex (s : GameState) :
    (advanceTurn s).dealerIndex = s.dealerIndex := by
  unfold advanceTurn
  split <;> rfl

@[simp] theorem advanceTurn_winnerId (s : GameState) :
    (advanceTurn s).winnerId = s.winnerId := by
  unfold advanceTurn
  split <;> rfl

@[simp] theorem advanceTurn_seed (s : GameState) : (advanceTurn s).seed = s.seed := by
  unfold advanceTurn
  split <;> rfl

theorem advanceTurn_players_of_get? {s : GameState} {cur : Player}
    (h : s.players.get? s.turnIndex = some cur) :
    (advanceTurn s).players = s.players.set s.turnIndex (clearTurn cur) := by
  unfold advanceTurn
  rw [h]

/-- C10: a successful KNOCK changes only the phase (to KNOCKED), the
knocker id, `finalTurnsLeft`, `turnIndex`, the log, and the knocker's
turn-scoped fields; stock, discard, dealer, winner, seed, and every
player's hand/lives/elimination (and every other seat entirely) are
untouched. -/
theorem C10_knock_frame (s : GameState) (pid : Nat) (s' : GameState)
    (h : applyAction s pid Action.KNOCK = (none, s')) :
    s'.phase = Phase.KNOCKED
  ∧ s'.knockedBy = some pid
  ∧ s'.finalTurnsLeft = ((activePlayers s).length : Int) - 1
  ∧ s'.stock = s.stock
  ∧ s'.discard = s.discard
  ∧ s'.dealerIndex = s.dealerIndex
  ∧ s'.winnerId = s.winnerId
  ∧ s'.seed = s.seed
  ∧ s'.roomId = s.roomId
  ∧ s'.rules = s.rules
  ∧ (∀ i, i ≠ s.turnIndex → s'.players.get? i = s.players.get? i)
  ∧ (∀ p0, s.players.get? s.turnIndex = some p0 →
      s'.players.get? s.turnIndex = some (clearTurn p0)
      ∧ s'.lastActionLog = s.lastActionLog ++ [p0.name ++ " knocks."]) := by
  unfold applyAction at h
  split at h
  · injection h with h1 h2
    cases h1
  · split at h
    · injection h with h1 h2
      cases h1
    · rename_i p0 heq
      split at h
      · injection h with h1 h2
        cases h1
      · split at h
        · injection h with h1 h2
          cases h1
        · have h' : doKnock { s with players := s.players.set s.turnIndex (initStage p0) }
              pid (initStage p0) = (none, s') := h
          clear h
          unfold doKnock at h'
          split at h'
          · injection h' with h1 h2
            cases h1
          · split at h'
            · injection h' with h1 h2
              cases h1
            · injection h' with h1 h2
              have hlt : s.turnIndex < s.players.length := get?_some_lt heq
              have hget1 :
                  (s.players.set s.turnIndex (initStage p0)).get? s.turnIndex =
                    some (initStage p0) :=
                List.get?_set_eq_of_lt _ hlt
              subst h2
              refine ⟨by simp, by simp, ?_, by simp, by simp, by simp, by simp,
                by simp, by simp, by simp, ?_, ?_⟩
              · rw [advanceTurn_finalTurnsLeft]
                show ((activePlayers _).length : Int) - 1 = _
                unfold activePlayers
                simp only []
                rw [filter_length_set (fun p => !p.eliminated) heq (by simp)]
              · intro i hi
                rw [advanceTurn_players_of_get? (by exact hget1), List.set_set]
                exact List.get?_set_ne _ _ (Ne.symm hi)
              · intro q hq
                have hq' : q = p0 := by
                  rw [heq] at hq
                  injection hq with hq2
                  exact hq2.symm
                subst hq'
                constructor
                · rw [advanceTurn_players_of_get? (by exact hget1), List.set_set,
                    clearTurn_initStage]
                  exact List.get?_set_eq_of_lt _ hlt
                · simp

/-! ## Projection lemmas for the scoring pipeline -/

@[simp] theorem loseLives_hand (p : Player) (n : Int) : (loseLives p n).hand = p.hand := by
  unfold loseLives
  split
  · rfl
  · simp only []
    split <;> rfl

@[simp] theorem loseLives_id (p : Player) (n : Int) : (loseLives p n).id = p.id := by
  unfold loseLives
  split
  · rfl
  · simp only []
    split <;> rfl

@[simp] theorem loseLives_name (p : Player) (n : Int) : (loseLives p n).name = p.name := by
  unfold loseLives
  split
  · rfl
  · simp only []
    split <;> rfl

@[simp] theorem clearTurn_id (p : Player) : (clearTurn p).id = p.id := rfl

@[simp] theorem clearTurn_hand (p : Player) : (clearTurn p).hand = p.hand := rfl

@[simp] theorem clearTurn_lives (p : Player) : (clearTurn p).lives = p.lives := rfl

@[simp] theorem clearTurn_eliminated (p : Player) :
    (clearTurn p).eliminated = p.eliminated := rfl

@[simp] theorem finishElims_players (s : GameState) :
    (finishElimsAndMaybeGameOver s).players = s.players := by
  unfold finishElimsAndMaybeGameOver
  split <;> rfl

@[simp] theorem finishElims_finalTurnsLeft (s : GameState) :
    (finishElimsAndMaybeGameOver s).finalTurnsLeft = s.finalTurnsLeft := by
  unfold finishElimsAndMaybeGameOver
  split <;> rfl

@[simp] theorem finishElims_knockedBy (s : GameState) :
    (finishElimsAndMaybeGameOver s).knockedBy = s.knockedBy := by
  unfold finishElimsAndMaybeGameOver
  split <;> rfl

@[simp] theorem finishElims_rules (s : GameState) :
    (finishElimsAndMaybeGameOver s).rules = s.rules := by
  unfold finishElimsAndMaybeGameOver
  split <;> rfl

@[simp] theorem resetTurnStages_phase (s : GameState) :
    (resetTurnStages s).phase = s.phase := rfl

@[simp] theorem resetTurnStages_finalTurnsLeft (s : GameState) :
    (resetTurnStages s).finalTurnsLeft = s.finalTurnsLeft := rfl

@[simp] theorem resetTurnStages_knockedBy (s : GameState) :
    (resetTurnStages s).knockedBy = s.knockedBy := rfl

@[simp] theorem resetTurnStages_rules (s : GameState) :
    (resetTurnStages s).rules = s.rules := rfl

@[simp] theorem resetTurnStages_players (s : GameState) :
    (resetTurnStages s).players = s.players.map clearTurn := rfl

/-- `finishElimsAndMaybeGameOver` sets a winner exactly when one player
survives. -/
theorem finishElims_winner_iff (s : GameState) :
    (finishElimsAndMaybeGameOver s).winnerId.isSome = true ↔
      (s.players.filter (fun q => !q.eliminated)).length = 1 := by
  unfold finishElimsAndMaybeGameOver
  split
  · rename_i w hw
    simp [hw]
  · rename_i hw
    constructor
    · intro hc
      simp at hc
    · intro hlen
      exfalso
      rcases hfe : s.players.filter (fun q => !q.eliminated) with _ | ⟨a, _ | ⟨b, rest⟩⟩
      · rw [hfe] at hlen
        cases hlen
      · exact hw a hfe
      · rw [hfe] at hlen
        simp at hlen

theorem modifyFirstById_get?_map {β : Type} (g : Player → β) (ps : List Player)
    (pid : Nat) (f : Player → Player) (hf : ∀ q, g (f q) = g q) (i : Nat) :
    ((modifyFirstById ps pid f).get? i).map g = (ps.get? i).map g := by
  induction ps generalizing i with
  | nil => rfl
  | cons q rest ih =>
    unfold modifyFirstById
    split
    · cases i with
      | zero => simp [hf]
      | succ j => rfl
    · cases i with
      | zero => rfl
      | succ j => exact ih j

theorem penalizeOne_players_map {β : Type} (g : Player → β)
    (hg : ∀ q n, g (loseLives q n) = g q) (s : GameState) (msg : String) (pid i : Nat) :
    (((penalizeOne s msg pid).players.get? i).map g) = ((s.players.get? i).map g) := by
  unfold penalizeOne
  simp only []
  exact modifyFirstById_get?_map g s.players pid _ (fun q => hg q 1) i

theorem penalizeLowest_players_map {β : Type} (g : Player → β)
    (hg : ∀ q n, g (loseLives q n) = g q) (msg : String) (L : List Nat) (s : GameState)
    (i : Nat) :
    (((penalizeLowest msg s L).players.get? i).map g) = ((s.players.get? i).map g) := by
  induction L generalizing s with
  | nil => rfl
  | cons pid rest ih =>
    unfold penalizeLowest
    rw [ih, penalizeOne_players_map g hg]

theorem penalizeLowestExcept_players_map {β : Type} (g : Player → β)
    (hg : ∀ q n, g (loseLives q n) = g q) (k : Nat) (msg : String) (L : List Nat)
    (s : GameState) (i : Nat) :
    (((penalizeLowestExcept k msg s L).players.get? i).map g) = ((s.players.get? i).map g) := by
  induction L generalizing s with
  | nil => rfl
  | cons pid rest ih =>
    unfold penalizeLowestExcept
    split
    · rw [ih]
    · rw [ih, penalizeOne_players_map g hg]

/-- `scoreShowdown` never changes any player's hand. -/
theorem scoreShowdown_players_hand (s : GameState) (i : Nat) :
    (((scoreShowdown s).players.get? i).map Player.hand) =
      ((s.players.get? i).map Player.hand) := by
  unfold scoreShowdown
  simp only [finishElims_players]
  split
  · split
    · exact modifyFirstById_get?_map _ _ _ _ (fun q => loseLives_hand q 2) i
    · split
      · exact penalizeLowestExcept_players_map _ (fun q n => loseLives_hand q n) _ _ _ _ i
      · exact penalizeLowest_players_map _ (fun q n => loseLives_hand q n) _ _ _ i
  · exact penalizeLowest_players_map _ (fun q n => loseLives_hand q n) _ _ _ i

/-! ## C4: an in-turn 31 ends the hand immediately -/

@[simp] theorem initStage_lives (p : Player) : (initStage p).lives = p.lives := by
  unfold initStage
  split <;> rfl

theorem filter_clearTurn_length (ps : List Player) :
    ((ps.map clearTurn).filter (fun q => !q.eliminated)).length =
      (ps.filter (fun q => !q.eliminated)).length := by
  induction ps with
  | nil => rfl
  | cons q rest ih =>
    simp only [List.map_cons, List.filter_cons, clearTurn_eliminated]
    by_cases hqe : q.eliminated = true <;> simp [hqe, ih]

/-- The phase of the common end-of-hand tail
(`finishElimsAndMaybeGameOver` + phase choice + `resetTurnStages`):
GAME_OVER exactly when one player survives. -/
theorem endHand_phase (s0 : GameState) :
    (resetTurnStages
      { finishElimsAndMaybeGameOver s0 with
        phase := if (finishElimsAndMaybeGameOver s0).winnerId.isSome
          then Phase.GAME_OVER else Phase.HAND_OVER }).phase =
      (if ((resetTurnStages
          { finishElimsAndMaybeGameOver s0 with
            phase := if (finishElimsAndMaybeGameOver s0).winnerId.isSome
              then Phase.GAME_OVER else Phase.HAND_OVER }).players.filter
            (fun q => !q.eliminated)).length = 1
        then Phase.GAME_OVER else Phase.HAND_OVER) := by
  rw [resetTurnStages_phase, resetTurnStages_players]
  show (if (finishElimsAndMaybeGameOver s0).winnerId.isSome
      then Phase.GAME_OVER else Phase.HAND_OVER) = _
  rw [filter_clearTurn_length]
  simp only [finishElims_players]
  by_cases hw : (finishElimsAndMaybeGameOver s0).winnerId.isSome = true
  · rw [if_pos hw, if_pos ((finishElims_winner_iff s0).mp hw)]
  · rw [if_neg hw, if_neg (fun hc => hw ((finishElims_winner_iff s0).mpr hc))]

theorem endHand_finalTurnsLeft (s0 : GameState) :
    (resetTurnStages
      { finishElimsAndMaybeGameOver s0 with
        phase := if (finishElimsAndMaybeGameOver s0).winnerId.isSome
          then Phase.GAME_OVER else Phase.HAND_OVER }).finalTurnsLeft =
      s0.finalTurnsLeft := by
  rw [resetTurnStages_finalTurnsLeft]
  show (finishElimsAndMaybeGameOver s0).finalTurnsLeft = _
  rw [finishElims_finalTurnsLeft]

theorem endHand_knockedBy (s0 : GameState) :
    (resetTurnStages
      { finishElimsAndMaybeGameOver s0 with
        phase := if (finishElimsAndMaybeGameOver s0).winnerId.isSome
          then Phase.GAME_OVER else Phase.HAND_OVER }).knockedBy =
      s0.knockedBy := by
  rw [resetTurnStages_knockedBy]
  show (finishElimsAndMaybeGameOver s0).knockedBy = _
  rw [finishElims_knockedBy]

theorem resetTurnStages_cleared (s0 : GameState) :
    ∀ q ∈ (resetTurnStages s0).players,
      q.turnStage = none ∧ q.drawnCardId = none ∧ q.tookDiscardId = none := by
  intro q hq
  rw [resetTurnStages_players] at hq
  obtain ⟨r, _, rfl⟩ := List.mem_map.mp hq
  exact ⟨rfl, rfl, rfl⟩

/-- C4: a successful DISCARD that leaves the discarding player's 3-card hand
at exactly 31 ends the hand immediately: `finalTurnsLeft` and `knockedBy`
are untouched (no countdown, no showdown), all turn bookkeeping is cleared,
phase becomes GAME_OVER exactly when one player survives (else HAND_OVER),
and every other non-eliminated player loses exactly one life (`loseLives` 1)
while the discarder and eliminated players keep theirs. -/
theorem C4_discard31_ends_hand (s : GameState) (pid cid : Nat) (s' : GameState)
    (h : applyAction s pid (Action.DISCARD cid) = (none, s'))
    (h31 : ∀ q, s'.players.get? s.turnIndex = some q →
      hasExact31 q.hand s.rules = true) :
    s'.finalTurnsLeft = s.finalTurnsLeft
  ∧ s'.knockedBy = s.knockedBy
  ∧ (∀ q ∈ s'.players, q.turnStage = none ∧ q.drawnCardId = none ∧ q.tookDiscardId = none)
  ∧ s'.phase = (if ((s'.players.filter (fun q => !q.eliminated)).length = 1)
      then Phase.GAME_OVER else Phase.HAND_OVER)
  ∧ (∀ i q, s.players.get? i = some q →
      (s'.players.get? i).map Player.lives =
        some (if q.eliminated = true ∨ q.id = pid then q.lives
          else (loseLives q 1).lives)
      ∧ (s'.players.get? i).map Player.eliminated =
        some (if q.eliminated = true ∨ q.id = pid then q.eliminated
          else (loseLives q 1).eliminated)) := by
  unfold applyAction at h
  split at h
  · injection h with h1 h2
    cases h1
  · split at h
    · injection h with h1 h2
      cases h1
    · rename_i p0 heq
      split at h
      · injection h with h1 h2
        cases h1
      · split at h
        · injection h with h1 h2
          cases h1
        · rename_i hidne helim
          have hid : p0.id = pid := not_not.mp hidne
          have helim' : p0.eliminated = false := by
            simpa using helim
          have hlt : s.turnIndex < s.players.length := get?_some_lt heq
          have h' : doDiscard
              { s with players := s.players.set s.turnIndex (initStage p0) }
              (initStage p0) cid = (none, s') := h
          clear h
          unfold doDiscard at h'
          split at h'
          · injection h' with h1 h2
            cases h1
          · split at h'
            · injection h' with h1 h2
              cases h1
            · rename_i idx hfind
              split at h'
              · injection h' with h1 h2
                cases h1
              · split at h'
                · injection h' with h1 h2
                  cases h1
                · rename_i c hc
                  simp only [] at h'
                  split at h'
                  · injection h' with h1 h2
                    cases h1
                  · rename_i hlen3
                    split at h'
                    · -- the 31 branch
                      rename_i h31t
                      injection h' with h1 h2
                      subst h2
                      refine ⟨endHand_finalTurnsLeft _, endHand_knockedBy _,
                        resetTurnStages_cleared _, endHand_phase _, ?_⟩
                      intro i q hq
                      by_cases hi : i = s.turnIndex
                      · subst hi
                        have hq2 : p0 = q := by
                          rw [heq] at hq
                          injection hq with hq3
                        subst hq2
                        constructor
                        · simp only [resetTurnStages_players, finishElims_players,
                            List.get?_map, Option.map_map, List.set_set]
                          rw [List.get?_set_eq_of_lt _ hlt]
                          simp [hid, helim']
                        · simp only [resetTurnStages_players, finishElims_players,
                            List.get?_map, Option.map_map, List.set_set]
                          rw [List.get?_set_eq_of_lt _ hlt]
                          simp [hid, helim']
                      · have hset2 : ((s.players.set s.turnIndex (initStage p0)).set
                            s.turnIndex
                            { id := (initStage p0).id, name := (initStage p0).name,
                              type := (initStage p0).type,
                              hand := (initStage p0).hand.eraseIdx idx,
                              lives := (initStage p0).lives,
                              eliminated := (initStage p0).eliminated,
                              turnStage := (initStage p0).turnStage,
                              drawnCardId := (initStage p0).drawnCardId,
                              tookDiscardId := (initStage p0).tookDiscardId }).get? i =
                            s.players.get? i := by
                          rw [List.set_set]
                          exact List.get?_set_ne _ _ (Ne.symm hi)
                        constructor
                        · simp only [resetTurnStages_players, finishElims_players,
                            List.get?_map, Option.map_map]
                          rw [hset2, hq]
                          by_cases hqe : q.eliminated = true
                          · simp [hqe]
                          · by_cases hqid : q.id = pid
                            · simp [hqe, hqid, hid]
                            · simp [hqe, hqid, hid]
                        · simp only [resetTurnStages_players, finishElims_players,
                            List.get?_map, Option.map_map]
                          rw [hset2, hq]
                          by_cases hqe : q.eliminated = true
                          · simp [hqe]
                          · by_cases hqid : q.id = pid
                            · simp [hqe, hqid, hid]
                            · simp [hqe, hqid, hid]
                    · -- the non-31 branch contradicts the 31 hypothesis
                      rename_i h31f
                      exfalso
                      have hhand : (s'.players.get? s.turnIndex).map Player.hand =
                          some ((initStage p0).hand.eraseIdx idx) := by
                        split at h'
                        · split at h'
                          · injection h' with h1 h2
                            rw [← h2]
                            simp only [resetTurnStages_players, List.get?_map,
                              Option.map_map]
                            rw [show (Player.hand ∘ clearTurn) = Player.hand from
                              funext fun r => rfl]
                            rw [scoreShowdown_players_hand]
                            simp only [List.set_set]
                            rw [List.get?_set_eq_of_lt _ hlt]
                            rfl
                          · injection h' with h1 h2
                            rw [← h2]
                            rw [advanceTurn_players_of_get?
                              (by exact List.get?_set_eq_of_lt _ (by simpa using hlt))]
                            simp only [List.set_set]
                            rw [List.get?_set_eq_of_lt _ hlt]
                            rfl
                        · injection h' with h1 h2
                          rw [← h2]
                          rw [advanceTurn_players_of_get?
                            (by exact List.get?_set_eq_of_lt _ (by simpa using hlt))]
                          simp only [List.set_set]
                          rw [List.get?_set_eq_of_lt _ hlt]
                          rfl
                      obtain ⟨q, hq, hqh⟩ := Option.map_eq_some'.mp hhand
                      have h31q := h31 q hq
                      rw [hqh] at h31q
                      exact h31f h31q

/-- Concrete state for the C4 witness: the acting player has drawn to 4
cards and can discard the 2♥ to hold A♠ K♠ Q♠ = 31. -/
def C4state : GameState :=
  { roomId := "R", rules := defaultRules,
    players := [
      { mkTestPlayer 0 "A" false with
        hand := [⟨Suit.S, Rank.A, 0⟩, ⟨Suit.S, Rank.K, 1⟩, ⟨Suit.S, Rank.Q, 2⟩,
          ⟨Suit.H, Rank.R2, 3⟩],
        turnStage := some TurnStage.DREW,
        drawnCardId := some 3 },
      { mkTestPlayer 1 "B" false with
        hand := [⟨Suit.H, Rank.R9, 20⟩, ⟨Suit.C, Rank.R8, 21⟩, ⟨Suit.D, Rank.R2, 22⟩] }],
    dealerIndex := 0, turnIndex := 0, phase := Phase.PLAYING, knockedBy := none,
    finalTurnsLeft := 0, stock := [], discard := [⟨Suit.H, Rank.R5, 10⟩],
    lastActionLog := [], winnerId := none, seed := 1 }

theorem C4_discard31_ends_hand_witness :
    applyAction C4state 0 (Action.DISCARD 3) =
      (none, (applyAction C4state 0 (Action.DISCARD 3)).2)
  ∧ (applyAction C4state 0 (Action.DISCARD 3)).2.finalTurnsLeft = C4state.finalTurnsLeft
  ∧ (applyAction C4state 0 (Action.DISCARD 3)).2.phase =
      (if (((applyAction C4state 0 (Action.DISCARD 3)).2.players.filter
          (fun q => !q.eliminated)).length = 1)
        then Phase.GAME_OVER else Phase.HAND_OVER)
  ∧ ((applyAction C4state 0 (Action.DISCARD 3)).2.players.get? 1).map Player.lives =
      some 2 := by
  have hh : applyAction C4state 0 (Action.DISCARD 3) =
      (none, (applyAction C4state 0 (Action.DISCARD 3)).2) := by decide
  have h31 : ∀ q, (applyAction C4state 0 (Action.DISCARD 3)).2.players.get?
      C4state.turnIndex = some q → hasExact31 q.hand C4state.rules = true := by
    intro q hq
    have hcon : (applyAction C4state 0 (Action.DISCARD 3)).2.players.get?
        C4state.turnIndex = some
          { mkTestPlayer 0 "A" false with
            hand := [⟨Suit.S, Rank.A, 0⟩, ⟨Suit.S, Rank.K, 1⟩, ⟨Suit.S, Rank.Q, 2⟩] } := by
      decide
    rw [hcon] at hq
    injection hq with hq2
    rw [← hq2]
    decide
  have main := C4_discard31_ends_hand C4state 0 3 _ hh h31
  refine ⟨hh, main.1, main.2.2.2.1, ?_⟩
  have hlife := (main.2.2.2.2 1
    { mkTestPlayer 1 "B" false with
      hand := [⟨Suit.H, Rank.R9, 20⟩, ⟨Suit.C, Rank.R8, 21⟩, ⟨Suit.D, Rank.R2, 22⟩] }
    (by decide)).1
  rw [hlife]
  decide

/-- Concrete state for the C10 witness: a legal knock position. -/
def C10state : GameState :=
  { roomId := "R", rules := defaultRules,
    players := [
      { mkTestPlayer 0 "A" false with
        hand := [⟨Suit.S, Rank.A, 0⟩, ⟨Suit.S, Rank.K, 1⟩, ⟨Suit.H, Rank.Q, 2⟩] },
      { mkTestPlayer 1 "B" false with
        hand := [⟨Suit.H, Rank.R9, 20⟩, ⟨Suit.C, Rank.R8, 21⟩, ⟨Suit.D, Rank.R2, 22⟩] }],
    dealerIndex := 0, turnIndex := 0, phase := Phase.PLAYING, knockedBy := none,
    finalTurnsLeft := 0, stock := [⟨Suit.C, Rank.R4, 30⟩],
    discard := [⟨Suit.H, Rank.R5, 10⟩],
    lastActionLog := [], winnerId := none, seed := 1 }

theorem C10_knock_frame_witness :
    applyAction C10state 0 Action.KNOCK =
      (none, (applyAction C10state 0 Action.KNOCK).2)
  ∧ (applyAction C10state 0 Action.KNOCK).2.phase = Phase.KNOCKED
  ∧ (applyAction C10state 0 Action.KNOCK).2.finalTurnsLeft =
      ((activePlayers C10state).length : Int) - 1
  ∧ (applyAction C10state 0 Action.KNOCK).2.stock = C10state.stock
  ∧ (applyAction C10state 0 Action.KNOCK).2.discard = C10state.discard :=
  ⟨by decide,
    (C10_knock_frame C10state 0 ((applyAction C10state 0 Action.KNOCK).2) (by decide)).1,
    (C10_knock_frame C10state 0 ((applyAction C10state 0 Action.KNOCK).2) (by decide)).2.2.1,
    (C10_knock_frame C10state 0 ((applyAction C10state 0 Action.KNOCK).2) (by decide)).2.2.2.1,
    (C10_knock_frame C10state 0 ((applyAction C10state 0 Action.KNOCK).2) (by decide)).2.2.2.2.1⟩

/-! ## C5: the knocked-phase countdown -/

@[simp] theorem penalizeOne_finalTurnsLeft (s : GameState) (msg : String) (pid : Nat) :
    (penalizeOne s msg pid).finalTurnsLeft = s.finalTurnsLeft := rfl

@[simp] theorem penalizeOne_phase (s : GameState) (msg : String) (pid : Nat) :
    (penalizeOne s msg pid).phase = s.phase := rfl

theorem penalizeLowest_finalTurnsLeft (msg : String) (L : List Nat) :
    ∀ s : GameState, (penalizeLowest msg s L).finalTurnsLeft = s.finalTurnsLeft := by
  induction L with
  | nil => intro s; rfl
  | cons pid rest ih =>
    intro s
    unfold penalizeLowest
    rw [ih]
    rfl

theorem penalizeLowestExcept_finalTurnsLeft (k : Nat) (msg : String) (L : List Nat) :
    ∀ s : GameState,
      (penalizeLowestExcept k msg s L).finalTurnsLeft = s.finalTurnsLeft := by
  induction L with
  | nil => intro s; rfl
  | cons pid rest ih =>
    intro s
    unfold penalizeLowestExcept
    split
    · rw [ih]
    · rw [ih]
      rfl

theorem scoreShowdown_finalTurnsLeft (s : GameState) :
    (scoreShowdown s).finalTurnsLeft = s.finalTurnsLeft := by
  unfold scoreShowdown
  simp only []
  rw [finishElims_finalTurnsLeft]
  split
  · split
    · rfl
    · split
      · exact penalizeLowestExcept_finalTurnsLeft _ _ _ _
      · exact penalizeLowest_finalTurnsLeft _ _ _
  · exact penalizeLowest_finalTurnsLeft _ _ _

theorem scoreShowdown_phase (s : GameState) :
    (scoreShowdown s).phase = Phase.GAME_OVER ∨
      (scoreShowdown s).phase = Phase.HAND_OVER := by
  unfold scoreShowdown
  simp only []
  split <;> simp

/-- A successful KNOCK enters phase KNOCKED with
`finalTurnsLeft = #active − 1`. -/
theorem knock_success_phase_ftl {s : GameState} {pid : Nat} {s' : GameState}
    (h : applyAction s pid Action.KNOCK = (none, s')) :
    s'.phase = Phase.KNOCKED ∧
      s'.finalTurnsLeft = ((activePlayers s).length : Int) - 1 := by
  unfold applyAction at h
  split at h
  · injection h with h1 h2
    cases h1
  · split at h
    · injection h with h1 h2
      cases h1
    · rename_i p0 heq
      split at h
      · injection h with h1 h2
        cases h1
      · split at h
        · injection h with h1 h2
          cases h1
        · have h' : doKnock { s with players := s.players.set s.turnIndex (initStage p0) }
              pid (initStage p0) = (none, s') := h
          clear h
          unfold doKnock at h'
          split at h'
          · injection h' with h1 h2
            cases h1
          · split at h'
            · injection h' with h1 h2
              cases h1
            · injection h' with h1 h2
              subst h2
              refine ⟨by simp, ?_⟩
              rw [advanceTurn_finalTurnsLeft]
              show ((activePlayers _).length : Int) - 1 = _
              unfold activePlayers
              simp only []
              rw [filter_length_set (fun p => !p.eliminated) heq (by simp)]

theorem drawFromStock_success {s2 : GameState} {p : Player} {s' : GameState}
    (h : drawFromStock s2 p = (none, s')) :
    s'.finalTurnsLeft = s2.finalTurnsLeft ∧ s'.phase = s2.phase := by
  unfold drawFromStock at h
  split at h
  · injection h with h1 h2
    cases h1
  · injection h with h1 h2
    rw [← h2]
    exact ⟨rfl, rfl⟩

@[simp] theorem refill_snd_finalTurnsLeft (s : GameState) :
    (refillStockFromDiscard s).2.finalTurnsLeft = s.finalTurnsLeft := by
  unfold refillStockFromDiscard
  split
  · rfl
  · split <;> rfl

@[simp] theorem refill_snd_phase (s : GameState) :
    (refillStockFromDiscard s).2.phase = s.phase := by
  unfold refillStockFromDiscard
  split
  · rfl
  · split <;> rfl

/-- A successful draw (stock or discard) changes neither `finalTurnsLeft`
nor the phase. -/
theorem draw_preserves {s : GameState} {pid : Nat} {a : Action} {s' : GameState}
    (ha : a = Action.DRAW_STOCK ∨ a = Action.DRAW_DISCARD)
    (h : applyAction s pid a = (none, s')) :
    s'.finalTurnsLeft = s.finalTurnsLeft ∧ s'.phase = s.phase := by
  unfold applyAction at h
  split at h
  · injection h with h1 h2
    cases h1
  · split at h
    · injection h with h1 h2
      cases h1
    · rename_i p0 heq
      split at h
      · injection h with h1 h2
        cases h1
      · split at h
        · injection h with h1 h2
          cases h1
        · rcases ha with rfl | rfl
          · have h' : doDrawStock
                { s with players := s.players.set s.turnIndex (initStage p0) }
                (initStage p0) = (none, s') := h
            clear h
            unfold doDrawStock at h'
            split at h'
            · injection h' with h1 h2
              cases h1
            · split at h'
              · split at h'
                · injection h' with h1 h2
                  cases h1
                · rename_i s2 hr
                  obtain ⟨hftl, hph⟩ := drawFromStock_success h'
                  have hs2 : s2 = (refillStockFromDiscard
                      { s with players := s.players.set s.turnIndex (initStage p0) }).2 :=
                    (congrArg Prod.snd hr).symm
                  constructor
                  · rw [hftl, hs2, refill_snd_finalTurnsLeft]
                  · rw [hph, hs2, refill_snd_phase]
              · obtain ⟨hftl, hph⟩ := drawFromStock_success h'
                exact ⟨hftl, hph⟩
          · have h' : doDrawDiscard
                { s with players := s.players.set s.turnIndex (initStage p0) }
                (initStage p0) = (none, s') := h
            clear h
            unfold doDrawDiscard at h'
            split at h'
            · injection h' with h1 h2
              cases h1
            · split at h'
              · injection h' with h1 h2
                cases h1
              · injection h' with h1 h2
                rw [← h2]
                exact ⟨rfl, rfl⟩

/-- A KNOCK can never succeed while the phase is already KNOCKED. -/
theorem knock_fails_when_knocked {s : GameState} {pid : Nat} {s' : GameState}
    (hk : s.phase = Phase.KNOCKED)
    (h : applyAction s pid Action.KNOCK = (none, s')) : False := by
  unfold applyAction at h
  split at h
  · injection h with h1 h2
    cases h1
  · split at h
    · injection h with h1 h2
      cases h1
    · rename_i p0 heq
      split at h
      · injection h with h1 h2
        cases h1
      · split at h
        · injection h with h1 h2
          cases h1
        · have h' : doKnock { s with players := s.players.set s.turnIndex (initStage p0) }
              pid (initStage p0) = (none, s') := h
          clear h
          unfold doKnock at h'
          split at h'
          · injection h' with h1 h2
            cases h1
          · split at h'
            · injection h' with h1 h2
              cases h1
            · rename_i hck
              refine hck ?_
              unfold canKnock
              rw [if_pos ?_]
              · simp
              · show ¬(s.phase = Phase.PLAYING)
                rw [hk]
                decide

/-- The full characterisation of a successful, non-31 DISCARD in phase
KNOCKED: the counter always drops by 1, the phase stays KNOCKED exactly
when the counter is still positive, and hitting 0 resolves the hand to
HAND_OVER or GAME_OVER through the showdown. -/
theorem discard_knocked_chars {s : GameState} {pid cid : Nat} {s' : GameState}
    (hk : s.phase = Phase.KNOCKED)
    (h : applyAction s pid (Action.DISCARD cid) = (none, s'))
    (hn31 : ∀ q, s'.players.get? s.turnIndex = some q →
      hasExact31 q.hand s.rules = false) :
    s'.finalTurnsLeft = s.finalTurnsLeft - 1
  ∧ (s'.phase = Phase.KNOCKED ↔ 0 < s.finalTurnsLeft - 1)
  ∧ (s.finalTurnsLeft - 1 ≤ 0 →
      s'.phase = Phase.HAND_OVER ∨ s'.phase = Phase.GAME_OVER) := by
  unfold applyAction at h
  split at h
  · injection h with h1 h2
    cases h1
  · split at h
    · injection h with h1 h2
      cases h1
    · rename_i p0 heq
      split at h
      · injection h with h1 h2
        cases h1
      · split at h
        · injection h with h1 h2
          cases h1
        · rename_i hidne helim
          have hid : p0.id = pid := not_not.mp hidne
          have helim' : p0.eliminated = false := by
            simpa using helim
          have hlt : s.turnIndex < s.players.length := get?_some_lt heq
          have h' : doDiscard
              { s with players := s.players.set s.turnIndex (initStage p0) }
              (initStage p0) cid = (none, s') := h
          clear h
          unfold doDiscard at h'
          split at h'
          · injection h' with h1 h2
            cases h1
          · split at h'
            · injection h' with h1 h2
              cases h1
            · rename_i idx hfind
              split at h'
              · injection h' with h1 h2
                cases h1
              · split at h'
                · injection h' with h1 h2
                  cases h1
                · rename_i c hc
                  simp only [] at h'
                  split at h'
                  · injection h' with h1 h2
                    cases h1
                  · rename_i hlen3
                    split at h'
                    · -- 31 branch: contradicts hn31
                      rename_i h31t
                      exfalso
                      injection h' with h1 h2
                      have hhand : (s'.players.get? s.turnIndex).map Player.hand =
                          some ((initStage p0).hand.eraseIdx idx) := by
                        rw [← h2]
                        simp only [resetTurnStages_players, finishElims_players,
                          List.get?_map, Option.map_map, List.set_set]
                        rw [List.get?_set_eq_of_lt _ hlt]
                        simp [hid, helim']
                      obtain ⟨q, hq, hqh⟩ := Option.map_eq_some'.mp hhand
                      have hfalse := hn31 q hq
                      rw [hqh] at hfalse
                      exact absurd h31t (by rw [hfalse]; decide)
                    · rename_i h31f
                      -- `split` discharges the phase test via hk, leaving the
                      -- two countdown branches
                      split at h'
                      · -- counter hits 0: showdown runs
                        rename_i hle
                        injection h' with h1 h2
                        rw [← h2]
                        have hph := scoreShowdown_phase
                          { s with
                            players := (s.players.set s.turnIndex (initStage p0)).set
                              s.turnIndex
                              { id := (initStage p0).id, name := (initStage p0).name,
                                type := (initStage p0).type,
                                hand := (initStage p0).hand.eraseIdx idx,
                                lives := (initStage p0).lives,
                                eliminated := (initStage p0).eliminated,
                                turnStage := (initStage p0).turnStage,
                                drawnCardId := (initStage p0).drawnCardId,
                                tookDiscardId := (initStage p0).tookDiscardId }
                            discard := s.discard ++ [c]
                            lastActionLog := s.lastActionLog ++
                              [(initStage p0).name ++ " discards."]
                            phase := Phase.SHOWDOWN
                            finalTurnsLeft := s.finalTurnsLeft - 1 }
                        have hftl := scoreShowdown_finalTurnsLeft
                          { s with
                            players := (s.players.set s.turnIndex (initStage p0)).set
                              s.turnIndex
                              { id := (initStage p0).id, name := (initStage p0).name,
                                type := (initStage p0).type,
                                hand := (initStage p0).hand.eraseIdx idx,
                                lives := (initStage p0).lives,
                                eliminated := (initStage p0).eliminated,
                                turnStage := (initStage p0).turnStage,
                                drawnCardId := (initStage p0).drawnCardId,
                                tookDiscardId := (initStage p0).tookDiscardId }
                            discard := s.discard ++ [c]
                            lastActionLog := s.lastActionLog ++
                              [(initStage p0).name ++ " discards."]
                            phase := Phase.SHOWDOWN
                            finalTurnsLeft := s.finalTurnsLeft - 1 }
                        refine ⟨?_, ?_, ?_⟩
                        · rw [resetTurnStages_finalTurnsLeft, hftl]
                        · rw [resetTurnStages_phase]
                          constructor
                          · intro hc2
                            rcases hph with hgo | hho
                            · rw [hgo] at hc2
                              cases hc2
                            · rw [hho] at hc2
                              cases hc2
                          · intro hpos
                            exact absurd hle (by omega)
                        · intro _
                          rw [resetTurnStages_phase]
                          rcases hph with hgo | hho
                          · exact Or.inr (by rw [hgo])
                          · exact Or.inl (by rw [hho])
                      · -- counter still positive: hand continues in KNOCKED
                        rename_i hgt
                        injection h' with h1 h2
                        rw [← h2]
                        refine ⟨advanceTurn_finalTurnsLeft _, ?_, ?_⟩
                        · rw [advanceTurn_phase]
                          constructor
                          · intro _
                            omega
                          · intro _
                            exact hk
                        · intro hle2
                          exact absurd hle2 hgt

/-- `discard_knocked_chars` without the 31 side condition: if the phase is
still KNOCKED afterwards, the discard decremented the counter and it is
still positive. -/
theorem discard_stays_knocked {s : GameState} {pid cid : Nat} {s' : GameState}
    (hk : s.phase = Phase.KNOCKED)
    (h : applyAction s pid (Action.DISCARD cid) = (none, s'))
    (hpost : s'.phase = Phase.KNOCKED) :
    s'.finalTurnsLeft = s.finalTurnsLeft - 1 ∧ 0 < s.finalTurnsLeft - 1 := by
  unfold applyAction at h
  split at h
  · injection h with h1 h2
    cases h1
  · split at h
    · injection h with h1 h2
      cases h1
    · rename_i p0 heq
      split at h
      · injection h with h1 h2
        cases h1
      · split at h
        · injection h with h1 h2
          cases h1
        · have h' : doDiscard
              { s with players := s.players.set s.turnIndex (initStage p0) }
              (initStage p0) cid = (none, s') := h
          clear h
          unfold doDiscard at h'
          split at h'
          · injection h' with h1 h2
            cases h1
          · split at h'
            · injection h' with h1 h2
              cases h1
            · rename_i idx hfind
              split at h'
              · injection h' with h1 h2
                cases h1
              · split at h'
                · injection h' with h1 h2
                  cases h1
                · rename_i c hc
                  simp only [] at h'
                  split at h'
                  · injection h' with h1 h2
                    cases h1
                  · split at h'
                    · -- 31 branch: phase becomes HAND_OVER / GAME_OVER
                      exfalso
                      injection h' with h1 h2
                      rw [← h2] at hpost
                      rw [resetTurnStages_phase] at hpost
                      simp only [] at hpost
                      split at hpost <;> cases hpost
                    · split at h'
                      · -- showdown: phase leaves KNOCKED
                        exfalso
                        injection h' with h1 h2
                        rw [← h2] at hpost
                        rw [resetTurnStages_phase] at hpost
                        rcases scoreShowdown_phase _ with hgo | hho
                        · rw [hpost] at hgo
                          cases hgo
                        · rw [hpost] at hho
                          cases hho
                      · rename_i hgt
                        injection h' with h1 h2
                        rw [← h2]
                        refine ⟨advanceTurn_finalTurnsLeft _, by omega⟩

/-- `Action.DISCARD` recogniser, used to count discards along a trace. -/
def isDiscardA : Action → Bool
| Action.DISCARD _ => true
| _ => false

def countDiscards (ms : List (Nat × Action)) : Nat :=
  (ms.filter (fun m => isDiscardA m.2)).length

/-- Apply a list of `(playerId, action)` moves in order. -/
def applySeq : GameState → List (Nat × Action) → GameState
| s, [] => s
| s, m :: ms => applySeq (applyAction s m.1 m.2).2 ms

/-- Every move of the list succeeds and leaves the phase KNOCKED. -/
def KnockedRunB : GameState → List (Nat × Action) → Bool
| _, [] => true
| s, m :: ms =>
  ((applyAction s m.1 m.2).1 == none) &&
  ((applyAction s m.1 m.2).2.phase == Phase.KNOCKED) &&
  KnockedRunB (applyAction s m.1 m.2).2 ms

/-- Along any run that stays in phase KNOCKED, `finalTurnsLeft` drops by
exactly the number of discards, and can never be exhausted. -/
theorem knockedRun_count (ms : List (Nat × Action)) :
    ∀ s : GameState, s.phase = Phase.KNOCKED → KnockedRunB s ms = true →
      (applySeq s ms).finalTurnsLeft = s.finalTurnsLeft - (countDiscards ms : Int)
      ∧ (applySeq s ms).phase = Phase.KNOCKED
      ∧ (0 < countDiscards ms → (countDiscards ms : Int) < s.finalTurnsLeft) := by
  induction ms with
  | nil =>
    intro s hk _
    refine ⟨by simp [applySeq, countDiscards], hk, ?_⟩
    intro hc
    simp [countDiscards] at hc
  | cons m rest ih =>
    intro s hk hrun
    unfold KnockedRunB at hrun
    simp only [Bool.and_eq_true, beq_iff_eq] at hrun
    obtain ⟨⟨hok, hph⟩, hrest⟩ := hrun
    have hpair : applyAction s m.1 m.2 = (none, (applyAction s m.1 m.2).2) :=
      Prod.ext hok rfl
    have hstep := ih (applyAction s m.1 m.2).2 hph hrest
    show (applySeq (applyAction s m.1 m.2).2 rest).finalTurnsLeft =
        s.finalTurnsLeft - (countDiscards (m :: rest) : Int)
      ∧ (applySeq (applyAction s m.1 m.2).2 rest).phase = Phase.KNOCKED
      ∧ (0 < countDiscards (m :: rest) →
          (countDiscards (m :: rest) : Int) < s.finalTurnsLeft)
    rcases hm : m.2 with _ | _ | cid | _
    · -- DRAW_STOCK
      rw [hm] at hpair hstep hph
      obtain ⟨hftl, _⟩ := draw_preserves (Or.inl rfl) hpair
      have hcount : countDiscards (m :: rest) = countDiscards rest := by
        simp [countDiscards, List.filter_cons, hm, isDiscardA]
      rw [hcount]
      exact ⟨by rw [hstep.1, hftl], hstep.2.1,
        fun hpos => by have h3 := hstep.2.2 hpos; omega⟩
    · -- DRAW_DISCARD
      rw [hm] at hpair hstep hph
      obtain ⟨hftl, _⟩ := draw_preserves (Or.inr rfl) hpair
      have hcount : countDiscards (m :: rest) = countDiscards rest := by
        simp [countDiscards, List.filter_cons, hm, isDiscardA]
      rw [hcount]
      exact ⟨by rw [hstep.1, hftl], hstep.2.1,
        fun hpos => by have h3 := hstep.2.2 hpos; omega⟩
    · -- DISCARD
      rw [hm] at hpair hstep hph
      obtain ⟨hftl, hgt⟩ := discard_stays_knocked hk hpair hph
      have hcount : countDiscards (m :: rest) = countDiscards rest + 1 := by
        simp [countDiscards, List.filter_cons, hm, isDiscardA]
      rw [hcount]
      refine ⟨?_, hstep.2.1, ?_⟩
      · rw [hstep.1, hftl]
        push_cast
        ring
      · intro _
        have h1 := hstep.1
        rcases Nat.eq_zero_or_pos (countDiscards rest) with hz | hpos2
        · rw [hz]
          push_cast
          omega
        · have h3 := hstep.2.2 hpos2
          rw [hftl] at h3
          push_cast
          omega
    · -- KNOCK: impossible in phase KNOCKED
      rw [hm] at hpair hstep hph
      exact absurd (knock_fails_when_knocked hk hpair) (fun hc => hc)

/-- C5: at knock time `finalTurnsLeft` is set to `#active − 1`; a draw never
changes it; a non-31 discard in phase KNOCKED decrements it by exactly 1
and the showdown fires exactly when it reaches 0; and along any run that
stays KNOCKED it equals the initial value minus the number of discards,
which therefore can never reach it early. -/
theorem C5_finalTurnsLeft_spec :
    (∀ (s : GameState) (pid : Nat) (s' : GameState),
      applyAction s pid Action.KNOCK = (none, s') →
      s'.phase = Phase.KNOCKED ∧
        s'.finalTurnsLeft = ((activePlayers s).length : Int) - 1)
  ∧ (∀ (s : GameState) (pid : Nat) (a : Action) (s' : GameState),
      (a = Action.DRAW_STOCK ∨ a = Action.DRAW_DISCARD) →
      applyAction s pid a = (none, s') →
      s'.finalTurnsLeft = s.finalTurnsLeft ∧ s'.phase = s.phase)
  ∧ (∀ (s : GameState) (pid cid : Nat) (s' : GameState),
      s.phase = Phase.KNOCKED →
      applyAction s pid (Action.DISCARD cid) = (none, s') →
      (∀ q, s'.players.get? s.turnIndex = some q →
        hasExact31 q.hand s.rules = false) →
      s'.finalTurnsLeft = s.finalTurnsLeft - 1
      ∧ (s'.phase = Phase.KNOCKED ↔ 0 < s.finalTurnsLeft - 1)
      ∧ (s.finalTurnsLeft - 1 ≤ 0 →
          s'.phase = Phase.HAND_OVER ∨ s'.phase = Phase.GAME_OVER))
  ∧ (∀ (ms : List (Nat × Action)) (s : GameState),
      s.phase = Phase.KNOCKED → KnockedRunB s ms = true →
      (applySeq s ms).finalTurnsLeft = s.finalTurnsLeft - (countDiscards ms : Int)
      ∧ (applySeq s ms).phase = Phase.KNOCKED
      ∧ (0 < countDiscards ms → (countDiscards ms : Int) < s.finalTurnsLeft)) :=
  ⟨fun s pid s' h => knock_success_phase_ftl h,
    fun s pid a s' ha h => draw_preserves ha h,
    fun s pid cid s' hk h hn31 => discard_knocked_chars hk h hn31,
    fun ms s hk hrun => knockedRun_count ms s hk hrun⟩

/-- Concrete state for the C5 witness: a legal knock position with a
stocked draw pile. -/
def C5state : GameState :=
  { roomId := "R", rules := defaultRules,
    players := [
      { mkTestPlayer 0 "A" false with
        hand := [⟨Suit.S, Rank.A, 0⟩, ⟨Suit.S, Rank.K, 1⟩, ⟨Suit.H, Rank.Q, 2⟩] },
      { mkTestPlayer 1 "B" false with
        hand := [⟨Suit.H, Rank.R9, 20⟩, ⟨Suit.C, Rank.R8, 21⟩, ⟨Suit.D, Rank.R2, 22⟩] }],
    dealerIndex := 0, turnIndex := 0, phase := Phase.PLAYING, knockedBy := none,
    finalTurnsLeft := 0, stock := [⟨Suit.C, Rank.R4, 30⟩],
    discard := [⟨Suit.H, Rank.R5, 10⟩],
    lastActionLog := [], winnerId := none, seed := 1 }

theorem C5_finalTurnsLeft_spec_witness :
    applyAction C5state 0 Action.KNOCK =
      (none, (applyAction C5state 0 Action.KNOCK).2)
  ∧ ((applyAction C5state 0 Action.KNOCK).2.phase = Phase.KNOCKED
      ∧ (applyAction C5state 0 Action.KNOCK).2.finalTurnsLeft =
        ((activePlayers C5state).length : Int) - 1)
  ∧ KnockedRunB (applyAction C5state 0 Action.KNOCK).2
      [(1, Action.DRAW_STOCK)] = true
  ∧ (applySeq (applyAction C5state 0 Action.KNOCK).2
      [(1, Action.DRAW_STOCK)]).finalTurnsLeft =
      (applyAction C5state 0 Action.KNOCK).2.finalTurnsLeft -
        (countDiscards [(1, Action.DRAW_STOCK)] : Int) := by
  have hknock : applyAction C5state 0 Action.KNOCK =
      (none, (applyAction C5state 0 Action.KNOCK).2) := by decide
  have hpart1 := C5_finalTurnsLeft_spec.1 C5state 0 _ hknock
  have hrun : KnockedRunB (applyAction C5state 0 Action.KNOCK).2
      [(1, Action.DRAW_STOCK)] = true := by decide
  have hpart4 := C5_finalTurnsLeft_spec.2.2.2 [(1, Action.DRAW_STOCK)] _ hpart1.1 hrun
  exact ⟨hknock, hpart1, hrun, hpart4.1⟩

/-! ## C6: what the view projector reveals

The hand is revealed to the seat's own viewer or in a reveal-all phase, but
`revealedValue` is only ever populated in reveal-all phases — the viewer's
own seat does *not* carry its computed value during PLAYING/KNOCKED. -/

/-- C6 (amended): seat `i` of the view always exposes id/name/type/lives/
eliminated/handCount; `revealedHand` is present iff the viewer is that seat
or the phase is SHOWDOWN/HAND_OVER/GAME_OVER; `revealedValue` is present
iff the phase is SHOWDOWN/HAND_OVER/GAME_OVER (own-seat viewing is *not*
sufficient). -/
theorem C6_view_reveal (s : GameState) (viewer : Option Nat) (i : Nat) (p : Player)
    (hp : s.players.get? i = some p) :
    ((makeClientView s viewer).players.get? i).map SeatView.id = some p.id
  ∧ ((makeClientView s viewer).players.get? i).map SeatView.name = some p.name
  ∧ ((makeClientView s viewer).players.get? i).map SeatView.type = some p.type
  ∧ ((makeClientView s viewer).players.get? i).map SeatView.lives = some p.lives
  ∧ ((makeClientView s viewer).players.get? i).map SeatView.eliminated =
      some p.eliminated
  ∧ ((makeClientView s viewer).players.get? i).map SeatView.handCount =
      some p.hand.length
  ∧ ((makeClientView s viewer).players.get? i).map SeatView.revealedHand =
      some (if (s.phase = Phase.SHOWDOWN ∨ s.phase = Phase.HAND_OVER ∨
            s.phase = Phase.GAME_OVER) ∨ viewer = some p.id
        then some p.hand else none)
  ∧ ((makeClientView s viewer).players.get? i).map SeatView.revealedValue =
      some (if s.phase = Phase.SHOWDOWN ∨ s.phase = Phase.HAND_OVER ∨
            s.phase = Phase.GAME_OVER
        then some (handValue p.hand s.rules) else none) := by
  have hplayers : (makeClientView s viewer).players.get? i =
      ((s.players.get? i).map (fun p =>
        let revealAll : Bool :=
          decide (s.phase = Phase.SHOWDOWN ∨ s.phase = Phase.HAND_OVER ∨
            s.phase = Phase.GAME_OVER)
        let revealThis : Bool :=
          revealAll ||
            (match viewer with
             | some vid => decide (p.id = vid)
             | none => false)
        { id := p.id
          name := p.name
          type := p.type
          lives := p.lives
          eliminated := p.eliminated
          handCount := p.hand.length
          revealedHand := if revealThis then some p.hand else none
          revealedValue :=
            if revealAll then some (handValue p.hand s.rules) else none })) := by
    show (s.players.map _).get? i = _
    rw [List.get?_map]
  rw [hplayers, hp]
  refine ⟨rfl, rfl, rfl, rfl, rfl, rfl, ?_, ?_⟩
  · simp only [Option.map_some']
    by_cases hrev : s.phase = Phase.SHOWDOWN ∨ s.phase = Phase.HAND_OVER ∨
        s.phase = Phase.GAME_OVER
    · simp [hrev]
    · cases hv : viewer with
      | none =>
        simp [hrev]
      | some vid =>
        by_cases hpv : p.id = vid
        · subst hpv
          simp [hrev]
        · have hvp : ¬vid = p.id := fun hc => hpv hc.symm
          simp [hrev, hpv, hvp]
  · simp only [Option.map_some']
    by_cases hrev : s.phase = Phase.SHOWDOWN ∨ s.phase = Phase.HAND_OVER ∨
        s.phase = Phase.GAME_OVER
    · simp [hrev]
    · simp [hrev]

/-- A PLAYING-phase state viewed by its own single seat. -/
def C6state : GameState :=
  { roomId := "R", rules := defaultRules,
    players := [{ mkTestPlayer 0 "A" false with
      hand := [⟨Suit.S, Rank.A, 0⟩, ⟨Suit.H, Rank.K, 1⟩, ⟨Suit.D, Rank.Q, 2⟩] }],
    dealerIndex := 0, turnIndex := 0, phase := Phase.PLAYING, knockedBy := none,
    finalTurnsLeft := 0, stock := [], discard := [], lastActionLog := [],
    winnerId := none, seed := 1 }

/-- C6 counterexample: during PLAYING the viewer's own seat carries its
revealed hand but *no* revealed value, refuting the claimed
"hand and value iff viewer-is-seat or reveal-phase". -/
theorem C6_counterexample :
    ((makeClientView C6state (some 0)).players.get? 0).map SeatView.revealedValue =
      some none
  ∧ ((makeClientView C6state (some 0)).players.get? 0).map SeatView.revealedHand =
      some (some [⟨Suit.S, Rank.A, 0⟩, ⟨Suit.H, Rank.K, 1⟩, ⟨Suit.D, Rank.Q, 2⟩])
  ∧ C6state.phase = Phase.PLAYING
  ∧ ((makeClientView C6state (some 0)).players.get? 0).map SeatView.id = some 0 := by
  decide

/-- Witness for the amended C6 at a concrete input. -/
theorem C6_view_reveal_witness :
    C6state.players.get? 0 = some { mkTestPlayer 0 "A" false with
      hand := [⟨Suit.S, Rank.A, 0⟩, ⟨Suit.H, Rank.K, 1⟩, ⟨Suit.D, Rank.Q, 2⟩] }
  ∧ ((makeClientView C6state (some 0)).players.get? 0).map SeatView.revealedHand =
      some (some [⟨Suit.S, Rank.A, 0⟩, ⟨Suit.H, Rank.K, 1⟩, ⟨Suit.D, Rank.Q, 2⟩])
  ∧ ((makeClientView C6state (some 0)).players.get? 0).map SeatView.revealedValue =
      some none := by
  have h := C6_view_reveal C6state (some 0) 0
    { mkTestPlayer 0 "A" false with
      hand := [⟨Suit.S, Rank.A, 0⟩, ⟨Suit.H, Rank.K, 1⟩, ⟨Suit.D, Rank.Q, 2⟩] }
    (by decide)
  refine ⟨by decide, ?_, ?_⟩
  · rw [h.2.2.2.2.2.2.1]
    decide
  · rw [h.2.2.2.2.2.2.2]
    decide

/-! ## C7: the CPU policy's knock gate

The source attempts a KNOCK purely on `value ≥ threshold` and returns
whether or not the knock was accepted — when knocking is illegal (e.g. the
phase is already KNOCKED) the CPU performs *no* draw this invocation. -/

/-- The draw-then-discard tail only ever reports a leading draw action, and
never a KNOCK. -/
theorem cpuDrawAndDiscard_actions (diff : CpuDifficulty) (s : GameState) (p : Player)
    (rTake r1 r2 : ℚ) :
    ((cpuDrawAndDiscard diff s p rTake r1 r2).2.head? = none
      ∨ (cpuDrawAndDiscard diff s p rTake r1 r2).2.head? = some Action.DRAW_STOCK
      ∨ (cpuDrawAndDiscard diff s p rTake r1 r2).2.head? = some Action.DRAW_DISCARD)
    ∧ Action.KNOCK ∉ (cpuDrawAndDiscard diff s p rTake r1 r2).2 := by
  unfold cpuDrawAndDiscard
  simp only []
  by_cases htd : cpuTakeDiscard diff s p rTake = true
  · rw [if_pos htd]
    rcases h1 : applyAction s p.id Action.DRAW_DISCARD with ⟨o, s2⟩
    cases o with
    | some e => simp
    | none =>
      simp only []
      split <;> simp
  · rw [if_neg htd]
    rcases h1 : applyAction s p.id Action.DRAW_STOCK with ⟨o, s2⟩
    cases o with
    | some e => simp
    | none =>
      simp only []
      split <;> simp

/-- C7 (amended): on a CPU seat's turn, if its hand value meets the tier
threshold the policy submits only a KNOCK — performing it when legal and
performing nothing at all when it is rejected (no fall-through to the
draw); only below the threshold does it move to the draw decision, and
then its first performed action, if any, is DRAW_STOCK or DRAW_DISCARD
(never KNOCK). -/
theorem C7_cpu_policy (diff : CpuDifficulty) (s : GameState) (rTake r1 r2 : ℚ)
    (p : Player)
    (hph : s.phase = Phase.PLAYING ∨ s.phase = Phase.KNOCKED)
    (hget : s.players.get? s.turnIndex = some p)
    (helim : p.eliminated = false) (htype : p.type = PlayerType.CPU) :
    (knockThreshold diff ≤ handValue p.hand s.rules →
      (maybeRunCpuTurn diff s rTake r1 r2).2 =
        (if (applyAction s p.id Action.KNOCK).1 = none then [Action.KNOCK] else []))
  ∧ (handValue p.hand s.rules < knockThreshold diff →
      ((maybeRunCpuTurn diff s rTake r1 r2).2.head? = none
        ∨ (maybeRunCpuTurn diff s rTake r1 r2).2.head? = some Action.DRAW_STOCK
        ∨ (maybeRunCpuTurn diff s rTake r1 r2).2.head? = some Action.DRAW_DISCARD)
      ∧ Action.KNOCK ∉ (maybeRunCpuTurn diff s rTake r1 r2).2) := by
  have hbody : maybeRunCpuTurn diff s rTake r1 r2 =
      (if knockThreshold diff ≤ handValue p.hand s.rules then
        match applyAction s p.id Action.KNOCK with
        | (none, s2) => (s2, [Action.KNOCK])
        | (some _, s2) => (s2, [])
      else cpuDrawAndDiscard diff s p rTake r1 r2) := by
    unfold maybeRunCpuTurn
    rw [if_neg (not_not_intro hph), hget]
    simp only [helim, htype, ne_eq, not_true_eq_false, Bool.false_eq_true, if_false]
  constructor
  · intro hthr
    rw [hbody, if_pos hthr]
    rcases hres : applyAction s p.id Action.KNOCK with ⟨o, s2⟩
    cases o with
    | none => simp
    | some e => simp
  · intro hthr
    rw [hbody, if_neg (not_le.mpr hthr)]
    exact cpuDrawAndDiscard_actions diff s p rTake r1 r2

/-- One CPU seat holding 31 in a KNOCKED phase: its value clears every
threshold but knocking is illegal. -/
def C7state : GameState :=
  { roomId := "R", rules := defaultRules,
    players := [
      { mkTestPlayer 0 "CPU 1" false with
        type := PlayerType.CPU,
        hand := [⟨Suit.S, Rank.A, 0⟩, ⟨Suit.S, Rank.K, 1⟩, ⟨Suit.S, Rank.Q, 2⟩] },
      { mkTestPlayer 1 "B" false with
        hand := [⟨Suit.H, Rank.R9, 20⟩, ⟨Suit.C, Rank.R8, 21⟩, ⟨Suit.D, Rank.R2, 22⟩] }],
    dealerIndex := 0, turnIndex := 0, phase := Phase.KNOCKED, knockedBy := some 1,
    finalTurnsLeft := 1, stock := [⟨Suit.C, Rank.R4, 30⟩],
    discard := [⟨Suit.H, Rank.R5, 10⟩],
    lastActionLog := [], winnerId := none, seed := 1 }

/-- C7 counterexample: the CPU's hand value meets the medium threshold but
knocking is not legal (phase KNOCKED), and the policy performs no action at
all — in particular no draw, refuting the claimed fall-through. -/
theorem C7_counterexample :
    knockThreshold CpuDifficulty.medium ≤
      handValue [(⟨Suit.S, Rank.A, 0⟩ : Card), ⟨Suit.S, Rank.K, 1⟩, ⟨Suit.S, Rank.Q, 2⟩]
        C7state.rules
  ∧ canKnock C7state 0 = false
  ∧ (maybeRunCpuTurn CpuDifficulty.medium C7state 0 0 0).2 = [] := by
  decide

/-- Witness for the amended C7 at a concrete input. -/
theorem C7_cpu_policy_witness :
    (C7state.phase = Phase.PLAYING ∨ C7state.phase = Phase.KNOCKED)
  ∧ C7state.players.get? C7state.turnIndex = some
      { mkTestPlayer 0 "CPU 1" false with
        type := PlayerType.CPU,
        hand := [⟨Suit.S, Rank.A, 0⟩, ⟨Suit.S, Rank.K, 1⟩, ⟨Suit.S, Rank.Q, 2⟩] }
  ∧ knockThreshold CpuDifficulty.medium ≤
      handValue [(⟨Suit.S, Rank.A, 0⟩ : Card), ⟨Suit.S, Rank.K, 1⟩, ⟨Suit.S, Rank.Q, 2⟩]
        C7state.rules
  ∧ (maybeRunCpuTurn CpuDifficulty.medium C7state 0 0 0).2 =
      (if (applyAction C7state 0 Action.KNOCK).1 = none then [Action.KNOCK] else []) := by
  refine ⟨Or.inr rfl, by decide, by decide, ?_⟩
  exact (C7_cpu_policy CpuDifficulty.medium C7state 0 0 0
    { mkTestPlayer 0 "CPU 1" false with
      type := PlayerType.CPU,
      hand := [⟨Suit.S, Rank.A, 0⟩, ⟨Suit.S, Rank.K, 1⟩, ⟨Suit.S, Rank.Q, 2⟩] }
    (Or.inr rfl) (by decide) (by decide) (by decide)).1 (by decide)

/-! ## C3: showdown penalties -/

theorem modifyFirstById_map_id (ps : List Player) (pid : Nat) (f : Player → Player)
    (hf : ∀ q, (f q).id = q.id) :
    (modifyFirstById ps pid f).map Player.id = ps.map Player.id := by
  induction ps with
  | nil => rfl
  | cons q rest ih =>
    unfold modifyFirstById
    split
    · simp [hf]
    · simp only [List.map_cons, ih]

/-- With pairwise-distinct player ids, mutating the first (hence only)
player with id `pid` acts pointwise. -/
theorem modifyFirstById_get?_nodup {ps : List Player}
    (hnd : (ps.map Player.id).Nodup) (pid : Nat) (f : Player → Player)
    {i : Nat} {p : Player} (hp : ps.get? i = some p) :
    (modifyFirstById ps pid f).get? i = some (if p.id = pid then f p else p) := by
  induction ps generalizing i with
  | nil => cases hp
  | cons q rest ih =>
    rw [List.map_cons, List.nodup_cons] at hnd
    obtain ⟨hqni, hrest⟩ := hnd
    unfold modifyFirstById
    split
    · rename_i hq
      cases i with
      | zero =>
        have hpq : q = p := by
          have h' : some q = some p := hp
          injection h'
        subst hpq
        simp [hq]
      | succ j =>
        have hpj : rest.get? j = some p := hp
        have hpid : ¬p.id = pid := by
          intro hc
          apply hqni
          rw [hq, ← hc]
          exact List.mem_map_of_mem _ (List.get?_mem hpj)
        show rest.get? j = _
        rw [hpj]
        simp [hpid]
    · rename_i hq
      cases i with
      | zero =>
        have hpq : q = p := by
          have h' : some q = some p := hp
          injection h'
        subst hpq
        simp [hq]
      | succ j =>
        have hpj : rest.get? j = some p := hp
        show (modifyFirstById rest pid f).get? j = _
        exact ih hrest hpj

theorem penalizeLowest_get? (msg : String) (L : List Nat) :
    ∀ (s : GameState), L.Nodup → (s.players.map Player.id).Nodup →
      ∀ (i : Nat) (p : Player), s.players.get? i = some p →
      (penalizeLowest msg s L).players.get? i =
        some (if p.id ∈ L then loseLives p 1 else p) := by
  induction L with
  | nil =>
    intro s _ _ i p hp
    show s.players.get? i = some (if p.id ∈ ([] : List Nat) then loseLives p 1 else p)
    simpa using hp
  | cons pid rest ih =>
    intro s hL hnd i p hp
    rw [List.nodup_cons] at hL
    obtain ⟨hpidni, hrest⟩ := hL
    unfold penalizeLowest
    have hstep : (penalizeOne s msg pid).players.get? i =
        some (if p.id = pid then loseLives p 1 else p) := by
      show (modifyFirstById s.players pid _).get? i = _
      exact modifyFirstById_get?_nodup hnd pid _ hp
    have hnd2 : ((penalizeOne s msg pid).players.map Player.id).Nodup := by
      show ((modifyFirstById s.players pid _).map Player.id).Nodup
      rw [modifyFirstById_map_id _ _ _ (fun q => loseLives_id q 1)]
      exact hnd
    rw [ih (penalizeOne s msg pid) hrest hnd2 i _ hstep]
    by_cases h1 : p.id = pid
    · have hnotin : pid ∉ rest := hpidni
      simp [h1, hnotin]
    · simp [h1]

theorem penalizeLowestExcept_get? (k : Nat) (msg : String) (L : List Nat) :
    ∀ (s : GameState), L.Nodup → (s.players.map Player.id).Nodup →
      ∀ (i : Nat) (p : Player), s.players.get? i = some p →
      (penalizeLowestExcept k msg s L).players.get? i =
        some (if p.id ∈ L ∧ p.id ≠ k then loseLives p 1 else p) := by
  induction L with
  | nil =>
    intro s _ _ i p hp
    show s.players.get? i =
      some (if p.id ∈ ([] : List Nat) ∧ p.id ≠ k then loseLives p 1 else p)
    simpa using hp
  | cons pid rest ih =>
    intro s hL hnd i p hp
    rw [List.nodup_cons] at hL
    obtain ⟨hpidni, hrest⟩ := hL
    unfold penalizeLowestExcept
    split
    · rename_i hpk
      subst hpk
      rw [ih s hrest hnd i p hp]
      by_cases h1 : p.id = pid
      · have hnotin : pid ∉ rest := hpidni
        simp [h1, hnotin]
      · simp [h1]
    · rename_i hpk
      have hstep : (penalizeOne s msg pid).players.get? i =
          some (if p.id = pid then loseLives p 1 else p) := by
        show (modifyFirstById s.players pid _).get? i = _
        exact modifyFirstById_get?_nodup hnd pid _ hp
      have hnd2 : ((penalizeOne s msg pid).players.map Player.id).Nodup := by
        show ((modifyFirstById s.players pid _).map Player.id).Nodup
        rw [modifyFirstById_map_id _ _ _ (fun q => loseLives_id q 1)]
        exact hnd
      rw [ih (penalizeOne s msg pid) hrest hnd2 i _ hstep]
      by_cases h1 : p.id = pid
      · have hnotin : pid ∉ rest := hpidni
        have hk : p.id ≠ k := by
          rw [h1]
          exact fun hc => hpk hc
        simp [h1, hnotin, hk, hpk, loseLives_id]
      · simp [h1]

theorem showdownLowest_nodup (s : GameState)
    (hnd : (s.players.map Player.id).Nodup) : (showdownLowest s).Nodup := by
  have h3 : ((s.players.filter (fun p => !p.eliminated)).map Player.id).Sublist
      (s.players.map Player.id) := (List.filter_sublist _).map _
  have h2 : (((s.players.filter (fun p => !p.eliminated)).map
      (fun p => (p.id, handValue p.hand s.rules))).map Prod.fst) =
      (s.players.filter (fun p => !p.eliminated)).map Player.id := by
    rw [List.map_map]
    rfl
  have h1 : ((((s.players.filter (fun p => !p.eliminated)).map
      (fun p => (p.id, handValue p.hand s.rules))).filter
        (fun x => x.2 == showdownMin s)).map Prod.fst).Sublist
      (((s.players.filter (fun p => !p.eliminated)).map
        (fun p => (p.id, handValue p.hand s.rules))).map Prod.fst) :=
    (List.filter_sublist _).map _
  have hsub := h1.trans (h2 ▸ h3)
  exact List.Nodup.sublist hsub hnd

/-- C3: `scoreShowdown` penalises pointwise — a sole-lowest knocker loses 2
(`loseLives _ 2`), a tie containing the knocker penalises the other tied
players by 1 and spares the knocker, and otherwise every tied-lowest player
loses 1; everyone else is untouched. -/
theorem C3_scoreShowdown_spec (s : GameState)
    (hnd : (s.players.map Player.id).Nodup)
    (i : Nat) (p : Player) (hp : s.players.get? i = some p) :
    (scoreShowdown s).players.get? i = some (
      match s.knockedBy with
      | some k =>
        if showdownLowest s = [k] then (if p.id = k then loseLives p 2 else p)
        else if k ∈ showdownLowest s then
          (if p.id ∈ showdownLowest s ∧ p.id ≠ k then loseLives p 1 else p)
        else (if p.id ∈ showdownLowest s then loseLives p 1 else p)
      | none => (if p.id ∈ showdownLowest s then loseLives p 1 else p)) := by
  have hlnd : (showdownLowest s).Nodup := showdownLowest_nodup s hnd
  unfold scoreShowdown
  simp only []
  rw [finishElims_players]
  split
  · rename_i k hkb
    split
    · rename_i hlow
      show (modifyFirstById s.players k _).get? i = _
      exact modifyFirstById_get?_nodup hnd k _ hp
    · rename_i hlow
      split
      · rename_i hmem
        refine penalizeLowestExcept_get? k _ (showdownLowest s) _ hlnd ?_ i p ?_
        · exact hnd
        · exact hp
      · rename_i hmem
        refine penalizeLowest_get? _ (showdownLowest s) _ hlnd ?_ i p ?_
        · exact hnd
        · exact hp
  · rename_i hkb
    refine penalizeLowest_get? _ (showdownLowest s) _ hlnd ?_ i p ?_
    · exact hnd
    · exact hp

/-- A 2-seat showdown where the knocker (seat 0, value 20) is sole lowest
against seat 1 (value 29). -/
def C3p0 : Player :=
  { mkTestPlayer 0 "A" false with
    hand := [⟨Suit.S, Rank.K, 1⟩, ⟨Suit.S, Rank.Q, 2⟩, ⟨Suit.H, Rank.R2, 3⟩] }

def C3p1 : Player :=
  { mkTestPlayer 1 "B" false with
    hand := [⟨Suit.H, Rank.R9, 20⟩, ⟨Suit.H, Rank.K, 21⟩, ⟨Suit.H, Rank.R10, 22⟩] }

def C3state : GameState :=
  { roomId := "R", rules := defaultRules,
    players := [C3p0, C3p1],
    dealerIndex := 0, turnIndex := 0, phase := Phase.SHOWDOWN, knockedBy := some 0,
    finalTurnsLeft := 0, stock := [], discard := [⟨Suit.H, Rank.R5, 10⟩],
    lastActionLog := [], winnerId := none, seed := 1 }

/-- Witness for C3: the sole-lowest knocker loses 2 lives, the other seat
is untouched. -/
theorem C3_scoreShowdown_spec_witness :
    (C3state.players.map Player.id).Nodup
  ∧ C3state.players.get? 0 = some C3p0
  ∧ (scoreShowdown C3state).players.get? 0 = some (loseLives C3p0 2)
  ∧ (scoreShowdown C3state).players.get? 1 = some C3p1 := by
  have h0 := C3_scoreShowdown_spec C3state (by decide) 0 C3p0 (by decide)
  have h1 := C3_scoreShowdown_spec C3state (by decide) 1 C3p1 (by decide)
  refine ⟨by decide, by decide, ?_, ?_⟩
  · rw [h0]
    decide
  · rw [h1]
    decide

end Scat31
